import Mathlib

/-!
Verification of the pyfast SQL database layer: parameter binding, row
decoding, the SQLite placeholder rewrite, transaction operations and the
session registry, embedded shallowly from `src/database/`.
-/

set_option maxRecDepth 4000

namespace Pyfast

/-- Model of IEEE-754 doubles.  The layer never computes with doubles, it
only moves them between Python and the drivers, so a double is either an
opaque Python float (tagged) or the rounding of a Python int
(`PyFloat_AsDouble` on an int), kept symbolic. -/
inductive F64 where
  | lit (tag : Nat)
  | ofInt (n : Int)
  deriving DecidableEq

/-- Python values crossing the boundary (the `&PyAny` parameters), as far as
the binders distinguish them.  `dict`/`list` carry their Python repr text
uninterpreted; `strList`/`intList` are the structured lists produced by row
decoding (`PyList::new`).  Date/time fields are in the ranges Python's
constructors enforce, so chrono's `from_ymd_opt(..).unwrap()` in the binder
cannot panic on values that exist on the Python side. -/
inductive PyValue where
  | none
  | bool (b : Bool)
  | int (n : Int)
  | float (x : F64)
  | str (s : String)
  | date (y m d : Nat)
  | time (h mi s us : Nat)
  | datetime (y mo d h mi s us : Nat)
  | dict (payload : String)
  | list (payload : String)
  | strList (a : List String)
  | intList (a : List Int)
  deriving DecidableEq

/-- The Python type name, as `format!("{:?}", param.get_type())` reports it
inside the `Unsupported parameter type` error. -/
def PyValue.typeName : PyValue → String
  | .none => "NoneType"
  | .bool _ => "bool"
  | .int _ => "int"
  | .float _ => "float"
  | .str _ => "str"
  | .date .. => "datetime.date"
  | .time .. => "datetime.time"
  | .datetime .. => "datetime.datetime"
  | .dict _ => "dict"
  | .list _ => "list"
  | .strList _ => "list"
  | .intList _ => "list"

/-- A value bound into a backend statement (`query.bind(..)`), tagged by the
Rust type it was bound as. -/
inductive BoundValue where
  | null
  | str (s : String)
  | int (n : Int)
  | float (x : F64)
  | bool (b : Bool)
  | datetime (y mo d h mi s us : Nat)
  | date (y m d : Nat)
  | time (h mi s us : Nat)
  | json (payload : String)
  deriving DecidableEq

/-- The error taxonomy of the layer, as the `PyErr`s the code constructs:
`unsupportedParameterType` / `unsupportedColumnType` are the two
`PyTypeError`s, `queryError` wraps a driver message (`PyRuntimeError`),
`noActiveTransaction` is the "No active transaction" error, and
`extractError` is a `PyErr` propagated by a failing `extract` after an
instance check succeeded (e.g. `OverflowError` on an out-of-range int). -/
inductive DbError where
  | unsupportedParameterType (t : String)
  | unsupportedColumnType (t : String)
  | queryError (msg : String)
  | noActiveTransaction
  | extractError
  deriving DecidableEq

def i64Min : Int := -(2 ^ 63)
def i64Max : Int := 2 ^ 63 - 1
def i32Min : Int := -(2 ^ 31)
def i32Max : Int := 2 ^ 31 - 1

/-! ### pyo3 conversion model

`extract::<T>` and `is_instance_of::<T>` as pyo3 implements them.  The two
facts that matter: a Python `bool` is a subclass of `int` (so it satisfies
`is_instance_of::<PyInt>` and extracts as `i64`), and `datetime.datetime`
is a subclass of `datetime.date`. -/

/-- `extract::<String>`: succeeds exactly on `str`. -/
def extractString : PyValue → Option String
  | .str s => some s
  | _ => Option.none

/-- `extract::<i64>` (`PyLong_AsLongLong`): succeeds on `int` within the
i64 range, and on `bool` (giving 1/0), since `bool` subclasses `int`. -/
def extractI64 : PyValue → Option Int
  | .int n => if i64Min ≤ n ∧ n ≤ i64Max then some n else Option.none
  | .bool b => some (if b then 1 else 0)
  | _ => Option.none

/-- `extract::<f64>` (`PyFloat_AsDouble`): succeeds on `float`, and on
`int`/`bool` via `__float__`, with symbolic rounding. -/
def extractF64 : PyValue → Option F64
  | .float x => some x
  | .int n => some (.ofInt n)
  | .bool b => some (.ofInt (if b then 1 else 0))
  | _ => Option.none

/-- `extract::<bool>`: requires an actual `bool`. -/
def extractBool : PyValue → Option Bool
  | .bool b => some b
  | _ => Option.none

def isNone : PyValue → Bool
  | .none => true
  | _ => false

def isInstanceOfStr : PyValue → Bool
  | .str _ => true
  | _ => false

/-- `is_instance_of::<PyInt>` is `PyLong_Check`, true for `bool` too. -/
def isInstanceOfInt : PyValue → Bool
  | .int _ => true
  | .bool _ => true
  | _ => false

def isInstanceOfFloat : PyValue → Bool
  | .float _ => true
  | _ => false

def isInstanceOfBool : PyValue → Bool
  | .bool _ => true
  | _ => false

def isInstanceOfDateTime : PyValue → Bool
  | .datetime .. => true
  | _ => false

/-- `datetime.datetime` subclasses `datetime.date`. -/
def isInstanceOfDate : PyValue → Bool
  | .date .. => true
  | .datetime .. => true
  | _ => false

def isInstanceOfTime : PyValue → Bool
  | .time .. => true
  | _ => false

def isInstanceOfDict : PyValue → Bool
  | .dict _ => true
  | _ => false

def isInstanceOfList : PyValue → Bool
  | .list _ => true
  | .strList _ => true
  | .intList _ => true
  | _ => false

/-- Render a decoded string list back to Python repr text (only needed so
that re-binding a decoded array stays well defined). -/
def renderStrList (a : List String) : String :=
  "[" ++ String.intercalate ", " a ++ "]"

def renderIntList (a : List Int) : String :=
  "[" ++ String.intercalate ", " (a.map toString) ++ "]"

/-- The Python repr a `PyDict`/`PyList` parameter prints as, fed to
`serde_json::from_str(..).unwrap_or(JsonValue::Null)`.  The claims never
inspect the parsed JSON, so the repr is carried through uninterpreted. -/
def jsonPayload : PyValue → String
  | .dict payload => payload
  | .list payload => payload
  | .strList a => renderStrList a
  | .intList a => renderIntList a
  | _ => ""

namespace MySqlParameterBinder

/-- One parameter of `MySqlParameterBinder::bind_parameters`
(mysql.rs:29-47): trial extraction `String` → `i64` → `f64` → `bool`,
first success wins, otherwise `PyTypeError: Unsupported parameter type`. -/
def bindOne (p : PyValue) : Except DbError BoundValue :=
  match extractString p with
  | some s => .ok (.str s)
  | Option.none =>
    match extractI64 p with
    | some i => .ok (.int i)
    | Option.none =>
      match extractF64 p with
      | some f => .ok (.float f)
      | Option.none =>
        match extractBool p with
        | some b => .ok (.bool b)
        | Option.none => .error (.unsupportedParameterType p.typeName)

/-- `MySqlParameterBinder::bind_parameters` (mysql.rs:20-51): left-to-right
over the parameter list, aborting on the first failure. -/
def bind_parameters (params : List PyValue) : Except DbError (List BoundValue) :=
  params.mapM bindOne

end MySqlParameterBinder

namespace PostgresParameterBinder

/-- One parameter of `PostgresParameterBinder::bind_parameters`
(postgresql.rs:47-120): a cascade of `is_instance_of` checks in source
order (`is_none` → `PyString` → `PyInt` → `PyFloat` → `PyBool` →
`PyDateTime` → `PyDate` → `PyTime` → `PyDict` → `PyList`), each followed by
the corresponding `extract`/`downcast` (whose failure propagates via `?` as
`extractError`), else `PyTypeError: Unsupported parameter type`.  Note a
Python `bool` satisfies the `PyInt` check and a `datetime` satisfies the
`PyDate` check; only the first matching arm runs. -/
def bindOne (p : PyValue) : Except DbError BoundValue :=
  if isNone p then .ok .null
  else if isInstanceOfStr p then
    match extractString p with
    | some s => .ok (.str s)
    | Option.none => .error .extractError
  else if isInstanceOfInt p then
    match extractI64 p with
    | some i => .ok (.int i)
    | Option.none => .error .extractError
  else if isInstanceOfFloat p then
    match extractF64 p with
    | some f => .ok (.float f)
    | Option.none => .error .extractError
  else if isInstanceOfBool p then
    match extractBool p with
    | some b => .ok (.bool b)
    | Option.none => .error .extractError
  else if isInstanceOfDateTime p then
    match p with
    | .datetime y mo d h mi s us => .ok (.datetime y mo d h mi s us)
    | _ => .error .extractError
  else if isInstanceOfDate p then
    match p with
    | .date y m d => .ok (.date y m d)
    | _ => .error .extractError
  else if isInstanceOfTime p then
    match p with
    | .time h mi s us => .ok (.time h mi s us)
    | _ => .error .extractError
  else if isInstanceOfDict p then .ok (.json (jsonPayload p))
  else if isInstanceOfList p then .ok (.json (jsonPayload p))
  else .error (.unsupportedParameterType p.typeName)

/-- `PostgresParameterBinder::bind_parameters` (postgresql.rs:39-123). -/
def bind_parameters (params : List PyValue) : Except DbError (List BoundValue) :=
  params.mapM bindOne

end PostgresParameterBinder

/-! ### SQLite placeholder rewrite (`convert_sql_params`)

Query text is a `List Char`.  The regex `\$(\d+)` scan is modelled by a
maximal-munch segmentation; `String::replace` is modelled by `replaceAll`. -/

/-- A segment of the query text: a literal character, or one placeholder
token (an entire regex match `$digits`). -/
inductive Seg where
  | lit (c : Char)
  | ph (tok : List Char)
  deriving DecidableEq

/-- Maximal-munch segmentation of the query text: the `ph` segments are
exactly the matches of `\$(\d+)` as `Regex::find_iter` yields them
(leftmost, non-overlapping, greedy), the `lit` segments are the remaining
single characters. -/
def segsOf : List Char → List Seg
  | [] => []
  | c :: rest =>
    if c = '$' ∧ rest.takeWhile Char.isDigit ≠ [] then
      .ph ('$' :: rest.takeWhile Char.isDigit) :: segsOf (rest.dropWhile Char.isDigit)
    else .lit c :: segsOf rest
termination_by s => s.length
decreasing_by
  · have := (List.dropWhile_suffix (l := rest) Char.isDigit).length_le
    simp only [List.length_cons]
    omega
  · simp

/-- Re-assemble the segmented text. -/
def flattenSegs : List Seg → List Char
  | [] => []
  | .lit c :: rest => c :: flattenSegs rest
  | .ph t :: rest => t ++ flattenSegs rest

/-- The placeholder tokens of a segmentation in textual order: the list
`params_extracted` of `convert_sql_params`. -/
def phTokens : List Seg → List (List Char)
  | [] => []
  | .lit _ :: rest => phTokens rest
  | .ph t :: rest => t :: phTokens rest

/-- Rust `str::replace(pat, rep)`: replace every leftmost non-overlapping
occurrence of `pat` by `rep` (`pat` is nonempty at every call site). -/
def replaceAll (pat rep : List Char) : List Char → List Char
  | [] => []
  | c :: rest =>
    if h : pat ≠ [] ∧ pat.isPrefixOf (c :: rest) then
      rep ++ replaceAll pat rep ((c :: rest).drop pat.length)
    else c :: replaceAll pat rep rest
termination_by s => s.length
decreasing_by
  · have hlen : pat.length ≠ 0 := fun h0 => h.1 (List.length_eq_zero.mp h0)
    simp only [List.length_drop, List.length_cons]
    omega
  · simp

/-- Rust `str::parse::<usize>` on the digit run of a token. -/
def digitsToNat (ds : List Char) : Nat :=
  ds.foldl (fun acc c => acc * 10 + (c.toNat - '0'.toNat)) 0

/-- The body of `convert_sql_params`' loop over the extracted matches: the
query is threaded through `String::replace`, and `params[index - 1]` is
pushed for each occurrence.  `Option.none` models the panics: an index of
`0` underflows `index - 1` (usize), and an index past the end of `params`
is an out-of-bounds access. -/
def convertLoop (params : List α) :
    List (List Char) → List Char → List α → Option (List Char × List α)
  | [], q, acc => some (q, acc)
  | p :: ps, q, acc =>
    let idx := digitsToNat (p.drop 1)
    if h : 1 ≤ idx ∧ idx ≤ params.length then
      convertLoop params ps (replaceAll p ['?'] q)
        (acc ++ [params.get ⟨idx - 1, by omega⟩])
    else Option.none

namespace SqliteParameterBinder

/-- `SqliteParameterBinder::convert_sql_params` (sqlite.rs:21-43): extract
all `$n` matches, then for each occurrence replace the token everywhere in
the (already partially rewritten) query and push the referenced
parameter. -/
def convert_sql_params (query : List Char) (params : List α) :
    Option (List Char × List α) :=
  convertLoop params (phTokens (segsOf query)) query []

/-- One parameter of `SqliteParameterBinder::bind_parameters`
(sqlite.rs:58-72): trial extraction `String` → `i64` → `f64` → `bool`,
first success wins, otherwise `PyTypeError: Unsupported parameter type`. -/
def bindOne (p : PyValue) : Except DbError BoundValue :=
  match extractString p with
  | some s => .ok (.str s)
  | Option.none =>
    match extractI64 p with
    | some i => .ok (.int i)
    | Option.none =>
      match extractF64 p with
      | some f => .ok (.float f)
      | Option.none =>
        match extractBool p with
        | some b => .ok (.bool b)
        | Option.none => .error (.unsupportedParameterType p.typeName)

/-- `SqliteParameterBinder::bind_parameters` (sqlite.rs:45-78):
`convert_sql_params(query, params).unwrap()` (the outer `Option` models its
panics) followed by binding the re-emitted parameter list. -/
def bind_parameters (query : List Char) (params : List PyValue) :
    Option (Except DbError (List Char × List BoundValue)) :=
  match convert_sql_params query params with
  | Option.none => Option.none
  | some (q', ps') => some ((ps'.mapM bindOne).map fun bs => (q', bs))

end SqliteParameterBinder

/-- Modelled from the spec: the intended one-pass rewrite — each placeholder
occurrence becomes the native `?` marker and nothing else changes. -/
def specRewrite : List Seg → List Char
  | [] => []
  | .lit c :: rest => c :: specRewrite rest
  | .ph _ :: rest => '?' :: specRewrite rest

/-- The first character, if any, is not a digit. -/
def noDigitHead : List Char → Prop
  | [] => True
  | c :: _ => ¬ c.isDigit

/-- Structural invariants of a (possibly partially rewritten) maximal-munch
segmentation: every placeholder token is `'$'` followed by a nonempty digit
run, and neither a placeholder nor a literal `'$'` is immediately followed
by a digit (match maximality). -/
inductive SegsWf : List Seg → Prop
  | nil : SegsWf []
  | lit (c : Char) (rest : List Seg)
      (hdollar : c = '$' → noDigitHead (flattenSegs rest))
      (hrest : SegsWf rest) : SegsWf (Seg.lit c :: rest)
  | ph (ds : List Char) (rest : List Seg) (hne : ds ≠ [])
      (hdig : ∀ c ∈ ds, c.isDigit)
      (hafter : noDigitHead (flattenSegs rest))
      (hrest : SegsWf rest) : SegsWf (Seg.ph ('$' :: ds) :: rest)

/-! ### Row decoding

A column value as the driver delivers it is a kind-tagged `SqlValue`; the
`try_get::<T>` probes succeed when the stored kind matches `T`'s SQL kind
(with `i32` additionally requiring the 32-bit range).  The echo model for
round trips stores exactly the kind and payload that were bound. -/

/-- A backend column value (kind + payload) as `try_get_raw`/`try_get`
see it.  `blob` stands for any stored kind none of the probes request. -/
inductive SqlValue where
  | null
  | int (n : Int)
  | float (x : F64)
  | text (s : String)
  | bool (b : Bool)
  | timestamp (y mo d h mi s us : Nat)
  | date (y m d : Nat)
  | time (h mi s us : Nat)
  | json (payload : String)
  | textArray (a : List String)
  | intArray (a : List Int)
  | blob (bytes : List Nat)
  deriving DecidableEq

/-- The driver's name for the stored kind, as `val.type_info()` prints in
the sqlite `Unsupported column type` error. -/
def SqlValue.kindName : SqlValue → String
  | .null => "NULL"
  | .int _ => "INTEGER"
  | .float _ => "REAL"
  | .text _ => "TEXT"
  | .bool _ => "BOOLEAN"
  | .timestamp .. => "DATETIME"
  | .date .. => "DATE"
  | .time .. => "TIME"
  | .json _ => "JSON"
  | .textArray _ => "TEXT[]"
  | .intArray _ => "INT[]"
  | .blob _ => "BLOB"

/-- `try_get::<i32>`: an integer column whose value fits in 32 bits. -/
def tryGetI32 : SqlValue → Option Int
  | .int n => if i32Min ≤ n ∧ n ≤ i32Max then some n else Option.none
  | _ => Option.none

/-- `try_get::<i64>`: any integer column. -/
def tryGetI64 : SqlValue → Option Int
  | .int n => some n
  | _ => Option.none

def tryGetString : SqlValue → Option String
  | .text s => some s
  | _ => Option.none

def tryGetF64 : SqlValue → Option F64
  | .float x => some x
  | _ => Option.none

def tryGetBool : SqlValue → Option Bool
  | .bool b => some b
  | _ => Option.none

def tryGetTimestamp : SqlValue → Option (Nat × Nat × Nat × Nat × Nat × Nat × Nat)
  | .timestamp y mo d h mi s us => some (y, mo, d, h, mi, s, us)
  | _ => Option.none

def tryGetDate : SqlValue → Option (Nat × Nat × Nat)
  | .date y m d => some (y, m, d)
  | _ => Option.none

def tryGetTime : SqlValue → Option (Nat × Nat × Nat × Nat)
  | .time h mi s us => some (h, mi, s, us)
  | _ => Option.none

def tryGetJson : SqlValue → Option String
  | .json payload => some payload
  | _ => Option.none

def tryGetTextArray : SqlValue → Option (List String)
  | .textArray a => some a
  | _ => Option.none

def tryGetIntArray : SqlValue → Option (List Int)
  | .intArray a => some a
  | _ => Option.none

/-- A fetched row: ordered column names and values. -/
abbrev SqlRow := List (String × SqlValue)

/-- The decoded Python dict: ordered key/value pairs. -/
abbrev PyDict := List (String × PyValue)

/-- `PyDict::set_item`: replace in place if the key exists (last write
wins), otherwise append. -/
def dictSet (d : PyDict) (k : String) (v : PyValue) : PyDict :=
  if d.any (fun kv => kv.1 = k) then
    d.map (fun kv => if kv.1 = k then (k, v) else kv)
  else d ++ [(k, v)]

namespace PostgresParameterBinder

/-- One column of `PostgresParameterBinder::bind_result`
(postgresql.rs:128-212): NULL → `None`; otherwise probe
`i32` → `i64` → `String` → `f64` → `bool` → timestamp → date → time →
json (set as its serialized STRING) → `Vec<String>` → `Vec<i32>`;
an exhausted probe list falls back to `None`. -/
def decodeColumn (v : SqlValue) : PyValue :=
  if v = .null then .none
  else
    match tryGetI32 v with
    | some n => .int n
    | Option.none =>
    match tryGetI64 v with
    | some n => .int n
    | Option.none =>
    match tryGetString v with
    | some s => .str s
    | Option.none =>
    match tryGetF64 v with
    | some x => .float x
    | Option.none =>
    match tryGetBool v with
    | some b => .bool b
    | Option.none =>
    match tryGetTimestamp v with
    | some (y, mo, d, h, mi, s, us) => .datetime y mo d h mi s us
    | Option.none =>
    match tryGetDate v with
    | some (y, m, d) => .date y m d
    | Option.none =>
    match tryGetTime v with
    | some (h, mi, s, us) => .time h mi s us
    | Option.none =>
    match tryGetJson v with
    | some payload => .str payload
    | Option.none =>
    match tryGetTextArray v with
    | some a => .strList a
    | Option.none =>
    match tryGetIntArray v with
    | some a => .intList a
    | Option.none => .none

/-- `PostgresParameterBinder::bind_result` (postgresql.rs:125-215): builds
the Python dict column by column; never fails. -/
def bind_result (row : SqlRow) : PyDict :=
  row.foldl (fun d c => dictSet d c.1 (decodeColumn c.2)) []

end PostgresParameterBinder

namespace MySqlParameterBinder

/-- One column of `MySqlParameterBinder::bind_result` (mysql.rs:56-78):
NULL → `None`; otherwise probe `i32` → `String` → `f64` → `bool`; the
cascade has NO else arm, so an exhausted probe list performs no
`set_item` at all — `Option.none` here means the column is skipped. -/
def decodeColumn? (v : SqlValue) : Option PyValue :=
  if v = .null then some .none
  else
    match tryGetI32 v with
    | some n => some (.int n)
    | Option.none =>
    match tryGetString v with
    | some s => some (.str s)
    | Option.none =>
    match tryGetF64 v with
    | some x => some (.float x)
    | Option.none =>
    match tryGetBool v with
    | some b => some (.bool b)
    | Option.none => Option.none

/-- `MySqlParameterBinder::bind_result` (mysql.rs:53-83). -/
def bind_result (row : SqlRow) : PyDict :=
  row.foldl
    (fun d c =>
      match decodeColumn? c.2 with
      | some pv => dictSet d c.1 pv
      | Option.none => d) []

end MySqlParameterBinder

namespace SqliteParameterBinder

/-- One column of `SqliteParameterBinder::bind_result` (sqlite.rs:87-111):
NULL → `None`; otherwise probe `i32` → `f64` → `bool` → `String`; an
exhausted probe list RETURNS the `PyTypeError: Unsupported column type`
error, aborting the whole row. -/
def decodeColumn (v : SqlValue) : Except DbError PyValue :=
  if v = .null then .ok .none
  else
    match tryGetI32 v with
    | some n => .ok (.int n)
    | Option.none =>
    match tryGetF64 v with
    | some x => .ok (.float x)
    | Option.none =>
    match tryGetBool v with
    | some b => .ok (.bool b)
    | Option.none =>
    match tryGetString v with
    | some s => .ok (.str s)
    | Option.none => .error (.unsupportedColumnType v.kindName)

/-- `SqliteParameterBinder::bind_result` (sqlite.rs:80-116). -/
def bind_result (row : SqlRow) : Except DbError PyDict :=
  row.foldlM (fun d c => (decodeColumn c.2).map (dictSet d c.1)) []

end SqliteParameterBinder

/-! ### Echo round trips (claim C1's model: the backend echoes the bound
value back as a single-column row). -/

/-- The echo backend: a bound value comes back as the column value of the
corresponding SQL kind. -/
def storeBound : BoundValue → SqlValue
  | .null => .null
  | .str s => .text s
  | .int n => .int n
  | .float x => .float x
  | .bool b => .bool b
  | .datetime y mo d h mi s us => .timestamp y mo d h mi s us
  | .date y m d => .date y m d
  | .time h mi s us => .time h mi s us
  | .json payload => .json payload

/-- Bind one parameter on Postgres, echo it as the single column `"c"`,
decode the row, and read the column back. -/
def pgRoundTrip (v : PyValue) : Except DbError (Option PyValue) :=
  (PostgresParameterBinder.bindOne v).map fun b =>
    (PostgresParameterBinder.bind_result [("c", storeBound b)]).lookup "c"

/-- Bind one parameter on MySQL, echo, decode, read back. -/
def mysqlRoundTrip (v : PyValue) : Except DbError (Option PyValue) :=
  (MySqlParameterBinder.bindOne v).map fun b =>
    (MySqlParameterBinder.bind_result [("c", storeBound b)]).lookup "c"

/-- Bind one parameter on SQLite (the per-parameter step of a `SELECT $1`
echo query), echo, decode, read back. -/
def sqliteRoundTrip (v : PyValue) : Except DbError (Option PyValue) := do
  let b ← SqliteParameterBinder.bindOne v
  let d ← SqliteParameterBinder.bind_result [("c", storeBound b)]
  pure (d.lookup "c")

/-! ### Transaction operations

The driver calls (`query.execute(..)`, `query.fetch_all(..)`, the row
stream) are abstracted as a runner function; the guarded slot
`Arc<Mutex<Option<Transaction>>>` is the explicit `Option H` state.  An
outer `Option.none` result models a panic (`unwrap` on an empty slot or a
convert panic); otherwise the result carries the returned
`Result`-value and the slot content after the call. -/

inductive Backend where
  | postgres
  | mysql
  | sqlite
  deriving DecidableEq

/-- The transaction object `DatabaseConnection::transaction` wraps: the
backend tag and the content of the freshly created guarded slot. -/
structure NewTransaction (H : Type) where
  kind : Backend
  slot : Option H
  deriving DecidableEq

namespace DatabaseConnection

/-- `DatabaseConnection::transaction` (connection.rs:49-82): begin a native
transaction on the backend's pool (`begun` is the driver outcome, e.g.
`Except.error` on an elapsed acquire timeout) and wrap it in
`Some(..)`.  The begin result goes through `map_err(..)` and then
`transaction.unwrap()` — a begin failure PANICS (`Option.none`); no error
value is ever returned. -/
def transaction (kind : Backend) (begun : Except String H) :
    Option (NewTransaction H) :=
  match begun with
  | .ok t => some { kind := kind, slot := some t }
  | .error _ => Option.none

end DatabaseConnection

/-- Rust `slice::chunks(b)` for `b > 0`: consecutive groups of `b`
elements, the last possibly shorter.  (`chunks` itself panics on `b = 0`;
every model caller tests `batch_size = 0` before calling this.) -/
def chunksOf (b : Nat) : List α → List (List α)
  | [] => []
  | x :: xs => ((x :: xs).take b) :: chunksOf b (xs.drop (b - 1))
termination_by l => l.length
decreasing_by
  have := List.length_drop (b - 1) xs
  simp only [List.length_cons]
  omega

/-- The chunk-accumulation loop shared by the `stream_data`
implementations: push each row, flush once the current chunk reaches
`chunk_size`, then flush a nonempty remainder. -/
def streamChunks (chunk_size : Nat) (rows : List ρ) : List (List ρ) :=
  let st := rows.foldl
    (fun (acc : List (List ρ) × List ρ) r =>
      let cur := acc.2 ++ [r]
      if chunk_size ≤ cur.length then (acc.1 ++ [cur], []) else (acc.1, cur))
    ([], [])
  if st.2.isEmpty then st.1 else st.1 ++ [st.2]

namespace PostgresDatabase

/-- `PostgresDatabase::execute` (postgresql.rs:227-243): bind the
parameters, BORROW the guarded handle (`guard.as_mut().unwrap()` —
`Option.none` models the panic when the slot is empty), run the statement,
return rows affected.  In every non-panic outcome the slot keeps the same
handle. -/
def execute (run : String → List BoundValue → Except String Nat)
    (slot : Option H) (query : String) (params : List PyValue) :
    Option (Except DbError Nat × Option H) :=
  match PostgresParameterBinder.bind_parameters params with
  | .error e => some (.error e, slot)
  | .ok bound =>
    match slot with
    | Option.none => Option.none
    | some h =>
      match run query bound with
      | .ok n => some (.ok n, some h)
      | .error m => some (.error (.queryError m), some h)

/-- `PostgresDatabase::fetch_all` (postgresql.rs:245-266): the same borrow
discipline as `execute`; materializes and decodes every row (postgres row
decoding is total). -/
def fetch_all (run : String → List BoundValue → Except String (List SqlRow))
    (slot : Option H) (query : String) (params : List PyValue) :
    Option (Except DbError (List PyDict) × Option H) :=
  match PostgresParameterBinder.bind_parameters params with
  | .error e => some (.error e, slot)
  | .ok bound =>
    match slot with
    | Option.none => Option.none
    | some h =>
      match run query bound with
      | .ok rows => some (.ok (rows.map PostgresParameterBinder.bind_result), some h)
      | .error m => some (.error (.queryError m), some h)

/-- `PostgresDatabase::stream_data` (postgresql.rs:268-305):
`transaction.lock().await.take().unwrap()` — the handle is WITHDRAWN from
the slot (panicking if the slot is empty) and never restored; rows are
decoded and grouped by the flush-at-`chunk_size` loop. -/
def stream_data (run : String → List BoundValue → Except String (List SqlRow))
    (slot : Option H) (query : String) (params : List PyValue)
    (chunk_size : Nat) :
    Option (Except DbError (List (List PyDict)) × Option H) :=
  match PostgresParameterBinder.bind_parameters params with
  | .error e => some (.error e, slot)
  | .ok bound =>
    match slot with
    | Option.none => Option.none
    | some _h =>
      match run query bound with
      | .ok rows =>
        some (.ok (streamChunks chunk_size
          (rows.map PostgresParameterBinder.bind_result)), Option.none)
      | .error m => some (.error (.queryError m), Option.none)

/-- The per-item step of `PostgresDatabase::bulk_change`: bind the
parameter set (`?` on failure), execute it, yield its rows affected. -/
def bulkItem (run : String → List BoundValue → Except String Nat)
    (query : String) (ps : List PyValue) : Except DbError Nat :=
  match PostgresParameterBinder.bind_parameters ps with
  | .error e => .error e
  | .ok bound =>
    match run query bound with
    | .ok n => .ok n
    | .error m => .error (.queryError m)

/-- `PostgresDatabase::bulk_change` (postgresql.rs:307-334): an empty slot
returns the "No active transaction" error (before anything else);
`params.chunks(batch_size)` panics on a zero `batch_size`; otherwise the
parameter sets run sequentially in chunk order, summing rows affected,
and the first failing item aborts the whole call via `?`. -/
def bulk_change (run : String → List BoundValue → Except String Nat)
    (slot : Option H) (query : String) (params : List (List PyValue))
    (batch_size : Nat) : Option (Except DbError Nat) :=
  match slot with
  | Option.none => some (.error .noActiveTransaction)
  | some _h =>
    if batch_size = 0 then Option.none
    else
      some ((chunksOf batch_size params).foldlM
        (fun total chunk =>
          chunk.foldlM (fun total ps => (bulkItem run query ps).map (total + ·)) total)
        0)

end PostgresDatabase

namespace MySqlDatabase

/-- `MySqlDatabase::execute` (mysql.rs:94-109): binds, then
`transaction.lock().await.take().unwrap()` — the handle is WITHDRAWN from
the slot, which is left EMPTY, and the handle is dropped when the call
ends; an already-empty slot panics.  Contrast with the Postgres and SQLite
`execute`, which only borrow. -/
def execute (run : String → List BoundValue → Except String Nat)
    (slot : Option H) (query : String) (params : List PyValue) :
    Option (Except DbError Nat × Option H) :=
  match MySqlParameterBinder.bind_parameters params with
  | .error e => some (.error e, slot)
  | .ok bound =>
    match slot with
    | Option.none => Option.none
    | some _h =>
      match run query bound with
      | .ok n => some (.ok n, Option.none)
      | .error m => some (.error (.queryError m), Option.none)

end MySqlDatabase

namespace SqliteDatabase

/-- `SqliteDatabase::execute` (sqlite.rs:128-143): bind (a convert panic
propagates), BORROW the handle (`guard.as_mut().unwrap()`), run. -/
def execute (run : List Char → List BoundValue → Except String Nat)
    (slot : Option H) (query : List Char) (params : List PyValue) :
    Option (Except DbError Nat × Option H) :=
  match SqliteParameterBinder.bind_parameters query params with
  | Option.none => Option.none
  | some (.error e) => some (.error e, slot)
  | some (.ok (q', bound)) =>
    match slot with
    | Option.none => Option.none
    | some h =>
      match run q' bound with
      | .ok n => some (.ok n, some h)
      | .error m => some (.error (.queryError m), some h)

/-- The per-item step of `SqliteDatabase::bulk_change`: bind the parameter
set (its convert step can panic — monadic `Option.none`), execute it. -/
def bulkItem (run : List Char → List BoundValue → Except String Nat)
    (query : List Char) (ps : List PyValue) : Option (Except DbError Nat) :=
  match SqliteParameterBinder.bind_parameters query ps with
  | Option.none => Option.none
  | some (.error e) => some (.error e)
  | some (.ok (q', bound)) =>
    match run q' bound with
    | .ok n => some (.ok n)
    | .error m => some (.error (.queryError m))

/-- `SqliteDatabase::bulk_change` (sqlite.rs:207-235): same control flow as
the Postgres one — empty slot → "No active transaction", `chunks` panics
on zero, sequential items, first failure aborts — with the SQLite binder
(whose convert step can panic) per item.  The fold runs in
`ExceptT DbError Option`, i.e. values are `Option (Except DbError Nat)`
with panic absorbing. -/
def bulk_change (run : List Char → List BoundValue → Except String Nat)
    (slot : Option H) (query : List Char) (params : List (List PyValue))
    (batch_size : Nat) : Option (Except DbError Nat) :=
  match slot with
  | Option.none => some (.error .noActiveTransaction)
  | some _h =>
    if batch_size = 0 then Option.none
    else
      ((chunksOf batch_size params).foldlM
        (fun total chunk =>
          chunk.foldlM
            (fun total ps =>
              (ExceptT.mk (bulkItem run query ps)).map (total + ·))
            total)
        0 : ExceptT DbError Option Nat)

end SqliteDatabase

/-! ### Session registry (context.rs) -/

/-- A cloneable reference to one transaction's shared guarded state: the
`Arc<Mutex<Option<..>>>` cell is named by `cell`; cloning the
`DatabaseTransaction` clones the `Arc`, so clones address the same
cell. -/
structure TxShared where
  kind : Backend
  cell : Nat
  deriving DecidableEq

/-- The derived `Clone` of `DatabaseTransaction`: copies the `Arc`,
keeping the same cell. -/
def cloneTx (t : TxShared) : TxShared := t

/-- The process-wide `SQL_SESSION_MAPPING : DashMap<String,
DatabaseTransaction>`, as the finite map it implements. -/
def SessionMap := String → Option TxShared

/-- `insert_sql_session` (context.rs:16-18): `DashMap::insert`, replacing
any previous entry under the same id. -/
def insert_sql_session (m : SessionMap) (id : String) (tx : TxShared) :
    SessionMap :=
  fun k => if k = id then some tx else m k

/-- `remove_sql_session` (context.rs:20-22). -/
def remove_sql_session (m : SessionMap) (id : String) : SessionMap :=
  fun k => if k = id then Option.none else m k

/-- `get_session_database` (context.rs:24-28):
`mapping.get(id).map(|x| x.value().clone())`. -/
def get_session_database (m : SessionMap) (id : String) : Option TxShared :=
  (m id).map cloneTx

/-- The heap of guarded slots: cell id → slot content.  An operation
performed through any holder of a transaction mutates the heap at that
transaction's cell. -/
def CellHeap (H : Type) := Nat → Option H

/-- Writing a transaction's guarded slot through one holder. -/
def writeCell (heap : CellHeap H) (c : Nat) (v : Option H) : CellHeap H :=
  fun c' => if c' = c then v else heap c'

/-! ### Spec-side ordered probe policies (claims C2 and C6) -/

/-- First-success-wins over an explicit ordered probe list. -/
def firstSome {α β : Type} (probes : List (α → Option β)) (v : α) : Option β :=
  probes.foldr (fun p acc => (p v).orElse fun _ => acc) Option.none

/-- Modelled from the spec: the ordered trial-extraction policy for
binding — the first successful probe determines the bound kind; a value
matching no probe fails with `UnsupportedParameterType` naming the
parameter's type. -/
def probeBindPolicy (probes : List (PyValue → Option BoundValue))
    (p : PyValue) : Except DbError BoundValue :=
  match firstSome probes p with
  | some b => .ok b
  | Option.none => .error (.unsupportedParameterType p.typeName)

def probeStr (p : PyValue) : Option BoundValue := (extractString p).map .str

def probeI64 (p : PyValue) : Option BoundValue := (extractI64 p).map .int

def probeF64 (p : PyValue) : Option BoundValue := (extractF64 p).map .float

def probeBool (p : PyValue) : Option BoundValue := (extractBool p).map .bool

/-- The MySQL/SQLite scalar probe order: string → int64 → double → bool. -/
def scalarProbes : List (PyValue → Option BoundValue) :=
  [probeStr, probeI64, probeF64, probeBool]

def pgProbeNull (p : PyValue) : Option BoundValue :=
  if isNone p then some .null else Option.none

def pgProbeStr (p : PyValue) : Option BoundValue :=
  if isInstanceOfStr p then (extractString p).map .str else Option.none

def pgProbeInt (p : PyValue) : Option BoundValue :=
  if isInstanceOfInt p then (extractI64 p).map .int else Option.none

def pgProbeFloat (p : PyValue) : Option BoundValue :=
  if isInstanceOfFloat p then (extractF64 p).map .float else Option.none

def pgProbeBool (p : PyValue) : Option BoundValue :=
  if isInstanceOfBool p then (extractBool p).map .bool else Option.none

def pgProbeDateTime : PyValue → Option BoundValue
  | .datetime y mo d h mi s us => some (.datetime y mo d h mi s us)
  | _ => Option.none

def pgProbeDate : PyValue → Option BoundValue
  | .date y m d => some (.date y m d)
  | _ => Option.none

def pgProbeTime : PyValue → Option BoundValue
  | .time h mi s us => some (.time h mi s us)
  | _ => Option.none

def pgProbeJson (p : PyValue) : Option BoundValue :=
  if isInstanceOfDict p ∨ isInstanceOfList p then some (.json (jsonPayload p))
  else Option.none

/-- The Postgres probe order: SQL-NULL → string → int64 → double → bool →
datetime → date → time → JSON (dict/list). -/
def pgProbes : List (PyValue → Option BoundValue) :=
  [pgProbeNull, pgProbeStr, pgProbeInt, pgProbeFloat, pgProbeBool,
   pgProbeDateTime, pgProbeDate, pgProbeTime, pgProbeJson]

/-- Modelled from the spec: ordered decode policy — first successful probe
wins; SQL NULL or an exhausted probe list decodes to `Null` (never an
error, never an omitted column). -/
def probeDecodePolicy (probes : List (SqlValue → Option PyValue))
    (v : SqlValue) : PyValue :=
  if v = .null then .none
  else
    match firstSome probes v with
    | some pv => pv
    | Option.none => .none

def dProbeI32 (v : SqlValue) : Option PyValue := (tryGetI32 v).map .int

def dProbeI64 (v : SqlValue) : Option PyValue := (tryGetI64 v).map .int

def dProbeStr (v : SqlValue) : Option PyValue := (tryGetString v).map .str

def dProbeF64 (v : SqlValue) : Option PyValue := (tryGetF64 v).map .float

def dProbeBool (v : SqlValue) : Option PyValue := (tryGetBool v).map .bool

def dProbeTimestamp : SqlValue → Option PyValue
  | .timestamp y mo d h mi s us => some (.datetime y mo d h mi s us)
  | _ => Option.none

def dProbeDate : SqlValue → Option PyValue
  | .date y m d => some (.date y m d)
  | _ => Option.none

def dProbeTime : SqlValue → Option PyValue
  | .time h mi s us => some (.time h mi s us)
  | _ => Option.none

/-- The json column is set as its serialized string. -/
def dProbeJson (v : SqlValue) : Option PyValue := (tryGetJson v).map .str

def dProbeTextArray (v : SqlValue) : Option PyValue :=
  (tryGetTextArray v).map .strList

def dProbeIntArray (v : SqlValue) : Option PyValue :=
  (tryGetIntArray v).map .intList

/-- The Postgres decode probe order of the claim: int32 → int64 → string →
float64 → bool → timestamp → date → time → json → string-array →
int-array. -/
def pgDecodeProbes : List (SqlValue → Option PyValue) :=
  [dProbeI32, dProbeI64, dProbeStr, dProbeF64, dProbeBool, dProbeTimestamp,
   dProbeDate, dProbeTime, dProbeJson, dProbeTextArray, dProbeIntArray]

/-- The MySQL decode probe order: int32 → string → float64 → bool. -/
def mysqlDecodeProbes : List (SqlValue → Option PyValue) :=
  [dProbeI32, dProbeStr, dProbeF64, dProbeBool]

/-- The SQLite decode probe order: int32 → float64 → bool → string. -/
def sqliteDecodeProbes : List (SqlValue → Option PyValue) :=
  [dProbeI32, dProbeF64, dProbeBool, dProbeStr]

/-! ## Theorems -/

/-- With an empty parameter list the convert loop can only return its
accumulator unchanged: any placeholder occurrence makes it panic. -/
theorem convertLoop_nil_params {α : Type} (toks : List (List Char))
    (q : List Char) (acc : List α) (out : List Char × List α)
    (h : convertLoop ([] : List α) toks q acc = some out) : out.2 = acc := by
  induction toks generalizing q acc with
  | nil =>
    simp only [convertLoop, Option.some.injEq] at h
    exact (congrArg Prod.snd h).symm ▸ rfl
  | cons p ps _ih =>
    simp only [convertLoop, List.length_nil] at h
    split at h
    · rename_i hc
      omega
    · exact Option.noConfusion h

/-- C4: `pool.transaction()` does not return a `Result`: on a successful
begin it returns the wrapped transaction with the handle present; when
acquiring/beginning fails (e.g. the acquire timeout elapses) it panics via
`unwrap` (`Option.none`), never yielding a `PoolExhausted` error value. -/
theorem transaction_ok_or_panic :
    (∀ (kind : Backend) (h : Nat),
       DatabaseConnection.transaction kind (.ok h) =
         some { kind := kind, slot := some h })
    ∧ (∀ (kind : Backend) (e : String),
       DatabaseConnection.transaction (H := Nat) kind (.error e) =
         Option.none) := by
  constructor
  · intro kind h
    rfl
  · intro kind e
    rfl

/-- C4 counterexample: at a concrete begin failure (the driver reporting an
elapsed acquire timeout), `transaction()` panics — it does not return a
`PoolExhausted` (or any) error value, contradicting the claim. -/
theorem transaction_panics_on_begin_failure :
    DatabaseConnection.transaction (H := Nat) .postgres
      (.error "pool timed out while waiting for an open connection") =
      Option.none := rfl

/-- C5 (amended): `execute` only borrows the transaction handle on POSTGRES
and SQLITE — every non-panic return leaves the slot exactly as it was; on
MYSQL, `execute` withdraws the handle (`take()`): whenever the statement
actually runs, the call returns with the slot left empty. -/
theorem execute_frame :
    (∀ (run : String → List BoundValue → Except String Nat)
       (slot : Option Nat) (query : String) (params : List PyValue)
       (out : Except DbError Nat × Option Nat),
       PostgresDatabase.execute run slot query params = some out →
         out.2 = slot)
    ∧ (∀ (run : List Char → List BoundValue → Except String Nat)
       (slot : Option Nat) (query : List Char) (params : List PyValue)
       (out : Except DbError Nat × Option Nat),
       SqliteDatabase.execute run slot query params = some out →
         out.2 = slot)
    ∧ (∀ (run : String → List BoundValue → Except String Nat)
       (h : Nat) (query : String) (params : List PyValue)
       (out : Except DbError Nat × Option Nat) (bound : List BoundValue),
       MySqlParameterBinder.bind_parameters params = .ok bound →
       MySqlDatabase.execute run (some h) query params = some out →
         out.2 = Option.none) := by
  refine ⟨?_, ?_, ?_⟩
  · intro run slot query params out h
    unfold PostgresDatabase.execute at h
    repeat' split at h
    all_goals
      (first
        | exact (congrArg Prod.snd (Option.some.inj h)).symm
        | simp_all)
  · intro run slot query params out h
    unfold SqliteDatabase.execute at h
    repeat' split at h
    all_goals
      (first
        | exact (congrArg Prod.snd (Option.some.inj h)).symm
        | simp_all)
  · intro run h query params out bound hb hex
    unfold MySqlDatabase.execute at hex
    rw [hb] at hex
    repeat' split at hex
    all_goals
      (first
        | exact (congrArg Prod.snd (Option.some.inj hex)).symm
        | simp_all)

/-- C5 witness: the frame facts at concrete inputs — a Postgres execute
returns with the same handle, a MySQL execute returns with the slot
emptied. -/
theorem execute_frame_witness :
    (((Except.ok 3 : Except DbError Nat), some (5 : Nat)).2 = some (5 : Nat))
    ∧ (((Except.ok 7 : Except DbError Nat),
        (Option.none : Option Nat)).2 = (Option.none : Option Nat)) :=
  ⟨execute_frame.1 (fun _ _ => .ok 3) (some 5) "SELECT 1" [] _ rfl,
   execute_frame.2.2 (fun _ _ => .ok 7) 5 "SELECT 1" [] _ [] rfl rfl⟩

/-- C5 counterexample: on MySQL, a successful `execute` empties the slot —
the handle it held before the call (`some 5`) is gone afterwards,
contradicting "the handle slot still contains the same handle it held
before the call" for every backend. -/
theorem mysql_execute_consumes_handle :
    MySqlDatabase.execute (H := Nat) (fun _ _ => .ok 7) (some 5)
        "UPDATE t SET a = 1" [] = some (.ok 7, Option.none)
    ∧ (Option.none : Option Nat) ≠ some 5 := by
  exact ⟨rfl, by simp⟩

/-- C8 (amended): on a Transaction whose handle slot is empty, only
`bulk_change` returns the `NoActiveTransaction` error; `execute`,
`fetch_all` and `stream_data` all PANIC (`unwrap()` on `None`, modelled by
`Option.none`) instead of returning an error. -/
theorem empty_slot_behavior :
    (∀ (run : String → List BoundValue → Except String Nat)
       (query : String) (params : List (List PyValue)) (b : Nat),
       PostgresDatabase.bulk_change (H := Nat) run Option.none query params b =
         some (.error .noActiveTransaction))
    ∧ (∀ (run : List Char → List BoundValue → Except String Nat)
       (query : List Char) (params : List (List PyValue)) (b : Nat),
       SqliteDatabase.bulk_change (H := Nat) run Option.none query params b =
         some (.error .noActiveTransaction))
    ∧ (∀ (run : String → List BoundValue → Except String Nat) (query : String),
       PostgresDatabase.execute (H := Nat) run Option.none query [] =
         Option.none)
    ∧ (∀ (run : String → List BoundValue → Except String (List SqlRow))
       (query : String),
       PostgresDatabase.fetch_all (H := Nat) run Option.none query [] =
         Option.none)
    ∧ (∀ (run : String → List BoundValue → Except String (List SqlRow))
       (query : String) (c : Nat),
       PostgresDatabase.stream_data (H := Nat) run Option.none query [] c =
         Option.none)
    ∧ (∀ (run : String → List BoundValue → Except String Nat) (query : String),
       MySqlDatabase.execute (H := Nat) run Option.none query [] =
         Option.none)
    ∧ (∀ (run : List Char → List BoundValue → Except String Nat)
       (query : List Char),
       SqliteDatabase.execute (H := Nat) run Option.none query [] =
         Option.none) := by
  refine ⟨fun _ _ _ _ => rfl, fun _ _ _ _ => rfl, fun _ _ => rfl, fun _ _ => rfl,
    fun _ _ _ => rfl, fun _ _ => rfl, ?_⟩
  intro run query
  unfold SqliteDatabase.execute SqliteParameterBinder.bind_parameters
  cases hcv : SqliteParameterBinder.convert_sql_params query ([] : List PyValue) with
  | none => rfl
  | some pr =>
    obtain ⟨q', ps'⟩ := pr
    have hps : ps' = [] :=
      convertLoop_nil_params (phTokens (segsOf query)) query [] (q', ps') hcv
    subst hps
    rfl

/-- C8 counterexample: `execute` on an empty slot (after `stream_data`, or
with the pool unreachable after finalization) PANICS — it does not return
a `NoActiveTransaction` error as the claim states. -/
theorem execute_empty_slot_panics :
    PostgresDatabase.execute (H := Nat) (fun _ _ => .ok 0) Option.none
      "SELECT 1" [] = Option.none := rfl

/-- C9: the session registry: `get` after `insert` yields a clone sharing
the same guarded cell (so a write through either reference is read through
the other); `get` after `remove` yields nothing; a second `insert` under
the same id replaces the stored transaction. -/
theorem registry_behavior :
    ∀ (m : SessionMap) (id : String) (tx : TxShared),
    (∃ tx', get_session_database (insert_sql_session m id tx) id = some tx'
      ∧ tx'.cell = tx.cell
      ∧ ∀ (heap : CellHeap Nat) (v : Option Nat),
          writeCell heap tx'.cell v tx.cell = v)
    ∧ get_session_database (remove_sql_session m id) id = Option.none
    ∧ ∀ tx2, get_session_database
        (insert_sql_session (insert_sql_session m id tx) id tx2) id =
          some (cloneTx tx2) := by
  intro m id tx
  refine ⟨⟨cloneTx tx, ?_, rfl, ?_⟩, ?_, ?_⟩
  · simp [get_session_database, insert_sql_session, cloneTx]
  · intro heap v
    simp [writeCell, cloneTx]
  · simp [get_session_database, remove_sql_session]
  · intro tx2
    simp [get_session_database, insert_sql_session, cloneTx]

/-- The MySQL/SQLite scalar extraction cascade agrees with the ordered
probe policy string → int64 → double → bool. -/
theorem scalar_cascade_eq_policy (p : PyValue) :
    MySqlParameterBinder.bindOne p = probeBindPolicy scalarProbes p := by
  cases p
  case int n =>
    by_cases hn : i64Min ≤ n ∧ n ≤ i64Max <;>
      simp [MySqlParameterBinder.bindOne, probeBindPolicy, firstSome,
        scalarProbes, probeStr, probeI64, probeF64, probeBool, extractString,
        extractI64, extractF64, extractBool, Option.orElse, hn]
  all_goals rfl

/-- The SQLite scalar cascade is the same source text as the MySQL one. -/
theorem sqlite_cascade_eq_policy (p : PyValue) :
    SqliteParameterBinder.bindOne p = probeBindPolicy scalarProbes p := by
  have h : SqliteParameterBinder.bindOne p = MySqlParameterBinder.bindOne p := by
    cases p <;> rfl
  rw [h]
  exact scalar_cascade_eq_policy p

/-- The Postgres instance-check cascade agrees with its ordered probe
policy on every parameter whose extraction cannot fail (every int in the
i64 range). -/
theorem pg_cascade_eq_policy (p : PyValue)
    (hint : ∀ n : Int, p = .int n → i64Min ≤ n ∧ n ≤ i64Max) :
    PostgresParameterBinder.bindOne p = probeBindPolicy pgProbes p := by
  cases p with
  | int n =>
    have hn := hint n rfl
    simp [PostgresParameterBinder.bindOne, probeBindPolicy, firstSome,
      pgProbes, pgProbeNull, pgProbeStr, pgProbeInt, pgProbeFloat,
      pgProbeBool, pgProbeDateTime, pgProbeDate, pgProbeTime, pgProbeJson,
      isNone, isInstanceOfStr, isInstanceOfInt, isInstanceOfFloat,
      isInstanceOfBool, isInstanceOfDict, isInstanceOfList, extractString,
      extractI64, extractF64, extractBool, Option.orElse, hn.1, hn.2]
  | _ => rfl

/-- C2 (amended): parameter types ARE resolved by sequential
first-success-wins trial probes, but the probe lists differ per backend:
MySQL and SQLite probe only string → int64 → double → bool — there are no
date/time/datetime or JSON probes, so such parameters fail with
`UnsupportedParameterType` — while Postgres checks SQL-NULL first and then
string → int64 → double → bool → datetime → date → time → JSON (dict or
list), via instance checks (stated for parameters whose extraction cannot
fail, i.e. ints within the i64 range).  A parameter matching no probe
fails with `UnsupportedParameterType` naming the parameter's type. -/
theorem bind_probe_order :
    (∀ p, MySqlParameterBinder.bindOne p = probeBindPolicy scalarProbes p)
    ∧ (∀ p, SqliteParameterBinder.bindOne p = probeBindPolicy scalarProbes p)
    ∧ (∀ p, (∀ n : Int, p = .int n → i64Min ≤ n ∧ n ≤ i64Max) →
        PostgresParameterBinder.bindOne p = probeBindPolicy pgProbes p) :=
  ⟨scalar_cascade_eq_policy, sqlite_cascade_eq_policy,
   fun p h => pg_cascade_eq_policy p h⟩

/-- C2 witness: the Postgres clause applied at a concrete parameter. -/
theorem bind_probe_order_witness :
    PostgresParameterBinder.bindOne (.bool true) =
      probeBindPolicy pgProbes (.bool true) :=
  bind_probe_order.2.2 (.bool true) (fun n h => by cases h)

/-- C2 counterexample: a `datetime.date` parameter — a kind the claimed
universal probe order includes — fails on MySQL with
`UnsupportedParameterType`, while the same value binds fine on Postgres:
the date/time/JSON probes do not exist on the MySQL/SQLite backends. -/
theorem mysql_has_no_date_probe :
    MySqlParameterBinder.bindOne (.date 2024 1 2) =
      .error (.unsupportedParameterType "datetime.date")
    ∧ PostgresParameterBinder.bindOne (.date 2024 1 2) =
      .ok (.date 2024 1 2) := ⟨rfl, rfl⟩

/-- The MySQL per-column decode cascade: first-success over
int32 → string → float64 → bool, with no fallback (`Option.none` = the
source's missing else arm, i.e. the column is skipped). -/
theorem mysql_decode_eq_policy (v : SqlValue) :
    MySqlParameterBinder.decodeColumn? v =
      if v = .null then some .none else firstSome mysqlDecodeProbes v := by
  cases v
  case int n =>
    by_cases hn : i32Min ≤ n ∧ n ≤ i32Max <;>
      simp [MySqlParameterBinder.decodeColumn?, firstSome, mysqlDecodeProbes,
        dProbeI32, dProbeStr, dProbeF64, dProbeBool, tryGetI32, tryGetString,
        tryGetF64, tryGetBool, Option.orElse, hn]
  all_goals rfl

/-- The Postgres per-column decode cascade equals the ordered decode
policy of the claim (probe order int32 → int64 → string → float64 → bool →
timestamp → date → time → json → string-array → int-array, NULL and
exhaustion falling back to `Null`). -/
theorem pg_decode_eq_policy (v : SqlValue) :
    PostgresParameterBinder.decodeColumn v =
      probeDecodePolicy pgDecodeProbes v := by
  cases v
  case int n =>
    by_cases hn : i32Min ≤ n ∧ n ≤ i32Max <;>
      simp [PostgresParameterBinder.decodeColumn, probeDecodePolicy,
        firstSome, pgDecodeProbes, dProbeI32, dProbeI64, dProbeStr,
        dProbeF64, dProbeBool, dProbeTimestamp, dProbeDate, dProbeTime,
        dProbeJson, dProbeTextArray, dProbeIntArray, tryGetI32, tryGetI64,
        tryGetString, tryGetF64, tryGetBool, tryGetTimestamp, tryGetDate,
        tryGetTime, tryGetJson, tryGetTextArray, tryGetIntArray,
        Option.orElse, hn]
  all_goals rfl

/-- C6 (amended): each backend decodes a column by first-success probing
in a fixed order, but the orders and the exhaustion behavior differ:
Postgres probes int32 → int64 → string → float64 → bool → timestamp →
date → time → json → string-array → int-array and decodes SQL NULL or an
exhausted probe list to `Null`, keeping the column; MySQL probes
int32 → string → float64 → bool and OMITS the column from the row when the
probes are exhausted; SQLite probes int32 → float64 → bool → string and
returns an `Unsupported column type` ERROR when the probes are
exhausted. -/
theorem decode_probe_order :
    (∀ v, PostgresParameterBinder.decodeColumn v =
        probeDecodePolicy pgDecodeProbes v)
    ∧ (∀ (c : String) (v : SqlValue),
        (PostgresParameterBinder.bind_result [(c, v)]).lookup c =
          some (PostgresParameterBinder.decodeColumn v))
    ∧ (∀ v, MySqlParameterBinder.decodeColumn? v =
        if v = .null then some .none else firstSome mysqlDecodeProbes v)
    ∧ (∀ (c : String) (v : SqlValue), v ≠ .null →
        firstSome mysqlDecodeProbes v = Option.none →
        MySqlParameterBinder.bind_result [(c, v)] = [])
    ∧ (∀ (c : String) (v : SqlValue), v ≠ .null →
        firstSome sqliteDecodeProbes v = Option.none →
        SqliteParameterBinder.bind_result [(c, v)] =
          .error (.unsupportedColumnType v.kindName)) := by
  refine ⟨pg_decode_eq_policy, ?_, mysql_decode_eq_policy, ?_, ?_⟩
  · intro c v
    simp [PostgresParameterBinder.bind_result, dictSet]
  · intro c v hv hnone
    simp [MySqlParameterBinder.bind_result, mysql_decode_eq_policy, hv, hnone]
  · intro c v hv hnone
    have hcol : SqliteParameterBinder.decodeColumn v =
        .error (.unsupportedColumnType v.kindName) := by
      cases v
      case null => exact absurd rfl hv
      case int n =>
        by_cases hn : i32Min ≤ n ∧ n ≤ i32Max
        · exact absurd hnone (by
            simp [firstSome, sqliteDecodeProbes, dProbeI32, tryGetI32, hn,
              Option.orElse])
        · simp [SqliteParameterBinder.decodeColumn, tryGetI32, tryGetF64,
            tryGetBool, tryGetString, hn]
      case float x =>
        exact absurd hnone (by
          simp [firstSome, sqliteDecodeProbes, dProbeI32, dProbeF64,
            tryGetI32, tryGetF64, Option.orElse])
      case bool b =>
        exact absurd hnone (by
          simp [firstSome, sqliteDecodeProbes, dProbeI32, dProbeF64,
            dProbeBool, tryGetI32, tryGetF64, tryGetBool, Option.orElse])
      case text str =>
        exact absurd hnone (by
          simp [firstSome, sqliteDecodeProbes, dProbeI32, dProbeF64,
            dProbeBool, dProbeStr, tryGetI32, tryGetF64, tryGetBool,
            tryGetString, Option.orElse])
      all_goals rfl
    simp only [SqliteParameterBinder.bind_result, List.foldlM]
    rw [hcol]
    rfl

/-- C6 witness: the omission/error clauses at a concrete BLOB column. -/
theorem decode_probe_order_witness :
    MySqlParameterBinder.bind_result [("c", SqlValue.blob [0])] = []
    ∧ SqliteParameterBinder.bind_result [("c", SqlValue.blob [0])] =
        .error (.unsupportedColumnType "BLOB") :=
  ⟨decode_probe_order.2.2.2.1 "c" (SqlValue.blob [0]) (by simp) rfl,
   decode_probe_order.2.2.2.2 "c" (SqlValue.blob [0]) (by simp) rfl⟩

/-- C6 counterexample: a column of a kind outside the probe list (a BLOB)
makes the SQLite row decoder RETURN AN ERROR — the claim says such a
column decodes to `Null` without error on every backend (as it does on
Postgres). -/
theorem sqlite_decode_errors_on_unknown_kind :
    SqliteParameterBinder.bind_result [("c", SqlValue.blob [0])] =
      .error (.unsupportedColumnType "BLOB")
    ∧ PostgresParameterBinder.bind_result [("c", SqlValue.blob [0])] =
      [("c", PyValue.none)] := ⟨rfl, rfl⟩

/-- C1 (amended): over the echo backend, string and float64 round-trip on
all three backends; int64 round-trips on Postgres for any i64 value and on
MySQL/SQLite for values within the 32-bit probe's range; bool does NOT
round-trip anywhere: a Python bool binds as int64 1/0 on every backend
(pyo3: `bool` is an `int` subclass, so the int probe/instance-check wins
first) and decodes back as a Python int.  Past the 32-bit range the probe
lists fail: a MySQL echo comes back with the column omitted, a SQLite echo
errors. -/
theorem scalar_roundtrip :
    (∀ s, pgRoundTrip (.str s) = .ok (some (.str s))
       ∧ mysqlRoundTrip (.str s) = .ok (some (.str s))
       ∧ sqliteRoundTrip (.str s) = .ok (some (.str s)))
    ∧ (∀ x, pgRoundTrip (.float x) = .ok (some (.float x))
       ∧ mysqlRoundTrip (.float x) = .ok (some (.float x))
       ∧ sqliteRoundTrip (.float x) = .ok (some (.float x)))
    ∧ (∀ n : Int, i64Min ≤ n → n ≤ i64Max →
        pgRoundTrip (.int n) = .ok (some (.int n)))
    ∧ (∀ n : Int, i32Min ≤ n → n ≤ i32Max →
        mysqlRoundTrip (.int n) = .ok (some (.int n))
        ∧ sqliteRoundTrip (.int n) = .ok (some (.int n)))
    ∧ (∀ b, pgRoundTrip (.bool b) = .ok (some (.int (if b then 1 else 0)))
       ∧ mysqlRoundTrip (.bool b) = .ok (some (.int (if b then 1 else 0)))
       ∧ sqliteRoundTrip (.bool b) = .ok (some (.int (if b then 1 else 0))))
    ∧ mysqlRoundTrip (.int (2 ^ 31)) = .ok Option.none
    ∧ sqliteRoundTrip (.int (2 ^ 31)) =
        .error (.unsupportedColumnType "INTEGER") := by
  refine ⟨?_, ?_, ?_, ?_, ?_, ?_, ?_⟩
  · exact fun s => ⟨rfl, rfl, rfl⟩
  · exact fun x => ⟨rfl, rfl, rfl⟩
  · intro n h1 h2
    have hr : i64Min ≤ n ∧ n ≤ i64Max := ⟨h1, h2⟩
    by_cases h32 : i32Min ≤ n ∧ n ≤ i32Max <;>
      simp [pgRoundTrip, PostgresParameterBinder.bindOne,
        PostgresParameterBinder.bind_result,
        PostgresParameterBinder.decodeColumn, isNone, isInstanceOfStr,
        isInstanceOfInt, extractString, extractI64, storeBound, tryGetI32,
        tryGetI64, dictSet, List.lookup, Except.map, hr, h32]
  · intro n h1 h2
    have h32 : i32Min ≤ n ∧ n ≤ i32Max := ⟨h1, h2⟩
    have hr : i64Min ≤ n ∧ n ≤ i64Max := by
      simp only [i64Min, i64Max] ; simp only [i32Min, i32Max] at h32
      omega
    constructor
    · simp [mysqlRoundTrip, MySqlParameterBinder.bindOne,
        MySqlParameterBinder.bind_result, MySqlParameterBinder.decodeColumn?,
        extractString, extractI64, storeBound, tryGetI32, dictSet,
        List.lookup, Except.map, hr, h32]
    · simp [sqliteRoundTrip, SqliteParameterBinder.bindOne,
        SqliteParameterBinder.bind_result, SqliteParameterBinder.decodeColumn,
        extractString, extractI64, storeBound, tryGetI32, dictSet,
        List.lookup, List.foldlM, Except.map, Except.bind, bind, pure,
        Except.pure, Functor.map, hr, h32]
  · intro b
    cases b <;> exact ⟨rfl, rfl, rfl⟩
  · rfl
  · rfl

/-- C1 witness: the int64 round trips at the concrete value 42. -/
theorem scalar_roundtrip_witness :
    pgRoundTrip (.int 42) = .ok (some (.int 42))
    ∧ mysqlRoundTrip (.int 42) = .ok (some (.int 42))
    ∧ sqliteRoundTrip (.int 42) = .ok (some (.int 42)) :=
  ⟨scalar_roundtrip.2.2.1 42 (by decide) (by decide),
   (scalar_roundtrip.2.2.2.1 42 (by decide) (by decide)).1,
   (scalar_roundtrip.2.2.2.1 42 (by decide) (by decide)).2⟩

/-- C1 counterexample: echoing a bound Python `True` on SQLite decodes to
the Python int `1`, not `True` — a bool parameter is bound as int64 on
every backend, so bind-execute-decode is not the identity on the bool
kind. -/
theorem bool_roundtrip_fails :
    sqliteRoundTrip (.bool true) = .ok (some (.int 1))
    ∧ PyValue.int 1 ≠ PyValue.bool true := ⟨rfl, by simp⟩

/-- For a positive chunk size the chunks re-concatenate to the list. -/
theorem chunksOf_flatten {α : Type} (b : Nat) (hb : 0 < b) :
    ∀ l : List α, (chunksOf b l).flatten = l
  | [] => by simp [chunksOf]
  | x :: xs => by
    have ih := chunksOf_flatten b hb (xs.drop (b - 1))
    simp only [chunksOf, List.flatten_cons, ih]
    cases b with
    | zero => omega
    | succ k => simp
termination_by l => l.length
decreasing_by
  have := List.length_drop (b - 1) xs
  simp only [List.length_cons]
  omega

/-- Every chunk has at most the requested length. -/
theorem chunksOf_length_le {α : Type} (b : Nat) :
    ∀ (l : List α), ∀ c ∈ chunksOf b l, c.length ≤ b
  | [] => by simp [chunksOf]
  | x :: xs => by
    intro c hc
    simp only [chunksOf] at hc
    rcases List.mem_cons.mp hc with rfl | h
    · simp [List.length_take]
    · exact chunksOf_length_le b (xs.drop (b - 1)) c h
termination_by l => l.length
decreasing_by
  have := List.length_drop (b - 1) xs
  simp only [List.length_cons]
  omega

/-- Folding chunk-by-chunk is folding the whole list (any lawful monad). -/
theorem foldlM_chunksOf {m : Type → Type} [Monad m] [LawfulMonad m]
    {α β : Type} (g : β → α → m β) (b : Nat) (hb : 0 < b) :
    ∀ (l : List α) (init : β),
    (chunksOf b l).foldlM (fun t c => c.foldlM g t) init = l.foldlM g init
  | [], init => by simp [chunksOf]
  | x :: xs, init => by
    have hdrop : xs.drop (b - 1) = (x :: xs).drop b := by
      cases b with
      | zero => omega
      | succ k => simp
    have ih := fun i => foldlM_chunksOf g b hb (xs.drop (b - 1)) i
    simp only [chunksOf, List.foldlM_cons, ih]
    rw [hdrop, ← List.foldlM_append, List.take_append_drop,
      List.foldlM_cons]
termination_by l => l.length
decreasing_by
  have := List.length_drop (b - 1) xs
  simp only [List.length_cons]
  omega

/-- The per-item `Except` fold of `bulk_change`, all items succeeding:
rows-affected go up by the sum. -/
theorem foldl_items_ok {ε α : Type} (item : α → Except ε Nat) (f : α → Nat) :
    ∀ (l : List α) (init : Nat), (∀ a ∈ l, item a = .ok (f a)) →
    l.foldlM (fun t a => (item a).map (t + ·)) init =
      .ok (init + (l.map f).sum)
  | [], init => by
    intro _
    simp only [List.foldlM_nil, List.map_nil, List.sum_nil, Nat.add_zero]
    rfl
  | a :: l, init => by
    intro h
    have ha := h a (by simp)
    have ih := foldl_items_ok item f l (init + f a)
      (fun x hx => h x (by simp [hx]))
    simp only [List.foldlM_cons, ha, Except.map, List.map_cons,
      List.sum_cons]
    show (Except.ok (init + f a) >>= fun t =>
      l.foldlM (fun t a => (item a).map (t + ·)) t) = _
    rw [show ∀ (k : Nat → Except ε Nat) n, (Except.ok n >>= k) = k n from
      fun _ _ => rfl]
    rw [ih]
    simp [Nat.add_assoc]

/-- The per-item `Except` fold of `bulk_change` with a failing item: the
first failure aborts with that item's error, whatever follows it. -/
theorem foldl_items_error {ε α : Type} (item : α → Except ε Nat) :
    ∀ (pre : List α) (bad : α) (post : List α) (init : Nat) (e : ε),
    (∀ a ∈ pre, ∃ n, item a = .ok n) → item bad = .error e →
    (pre ++ bad :: post).foldlM (fun t a => (item a).map (t + ·)) init =
      .error e
  | [], bad, post, init, e => by
    intro _ hbad
    simp only [List.nil_append, List.foldlM_cons, hbad, Except.map]
    rfl
  | a :: pre, bad, post, init, e => by
    intro h hbad
    obtain ⟨n, hn⟩ := h a (by simp)
    have ih := foldl_items_error item pre bad post (init + n) e
      (fun x hx => h x (by simp [hx])) hbad
    simp only [List.cons_append, List.foldlM_cons, hn, Except.map]
    show (Except.ok (init + n) >>= fun t =>
      (pre ++ bad :: post).foldlM (fun t a => (item a).map (t + ·)) t) = _
    rw [show ∀ (k : Nat → Except ε Nat) n, (Except.ok n >>= k) = k n from
      fun _ _ => rfl]
    exact ih

/-- The sqlite `bulk_change` item fold (in `ExceptT DbError Option`), all
items succeeding: rows-affected go up by the sum. -/
theorem foldl_items_ok_sqlite {α : Type}
    (item : α → Option (Except DbError Nat)) (f : α → Nat) :
    ∀ (l : List α) (init : Nat), (∀ a ∈ l, item a = some (.ok (f a))) →
    (List.foldlM (m := ExceptT DbError Option)
        (fun t a => (ExceptT.mk (item a)).map (t + ·)) init l) =
      ExceptT.mk (some (.ok (init + (l.map f).sum)))
  | [], init => by
    intro _
    simp only [List.foldlM_nil, List.map_nil, List.sum_nil, Nat.add_zero]
    rfl
  | a :: l, init => by
    intro h
    have ha := h a (by simp)
    have ih := foldl_items_ok_sqlite item f l (init + f a)
      (fun x hx => h x (by simp [hx]))
    simp only [List.foldlM_cons, List.map_cons, List.sum_cons]
    have hstep : (ExceptT.mk (item a)).map (init + ·) =
        (ExceptT.mk (some (.ok (init + f a))) : ExceptT DbError Option Nat) := by
      rw [ha]
      rfl
    rw [hstep,
      show ∀ k : Nat → ExceptT DbError Option Nat,
        (ExceptT.mk (some (Except.ok (init + f a))) >>= k) = k (init + f a)
        from fun _ => rfl,
      ih]
    simp [Nat.add_assoc]

/-- The sqlite `bulk_change` item fold with a failing item: the first
failure aborts with that item's error, whatever follows it. -/
theorem foldl_items_error_sqlite {α : Type}
    (item : α → Option (Except DbError Nat)) :
    ∀ (pre : List α) (bad : α) (post : List α) (init : Nat) (e : DbError),
    (∀ a ∈ pre, ∃ n, item a = some (.ok n)) → item bad = some (.error e) →
    (List.foldlM (m := ExceptT DbError Option)
        (fun t a => (ExceptT.mk (item a)).map (t + ·)) init
        (pre ++ bad :: post)) =
      ExceptT.mk (some (.error e))
  | [], bad, post, init, e => by
    intro _ hbad
    simp only [List.nil_append, List.foldlM_cons]
    have hstep : (ExceptT.mk (item bad)).map (init + ·) =
        (ExceptT.mk (some (.error e)) : ExceptT DbError Option Nat) := by
      rw [hbad]
      rfl
    rw [hstep]
    rfl
  | a :: pre, bad, post, init, e => by
    intro h hbad
    obtain ⟨n, hn⟩ := h a (by simp)
    have ih := foldl_items_error_sqlite item pre bad post (init + n) e
      (fun x hx => h x (by simp [hx])) hbad
    simp only [List.cons_append, List.foldlM_cons]
    have hstep : (ExceptT.mk (item a)).map (init + ·) =
        (ExceptT.mk (some (.ok (init + n))) : ExceptT DbError Option Nat) := by
      rw [hn]
      rfl
    rw [hstep,
      show ∀ k : Nat → ExceptT DbError Option Nat,
        (ExceptT.mk (some (Except.ok (init + n))) >>= k) = k (init + n)
        from fun _ => rfl]
    exact ih

/-- C7: `bulk_change` groups the parameter sets into consecutive chunks of
at most `batch_size` (stated for positive `batch_size`; `slice::chunks`
itself panics on zero), executes every parameter set sequentially against
the open transaction summing rows-affected, and stops at the first failing
set — later sets are never consulted — returning that set's error; on full
success it returns the total. -/
theorem bulk_change_behavior
    (run : String → List BoundValue → Except String Nat) (query : String)
    (runs : List Char → List BoundValue → Except String Nat)
    (querys : List Char)
    (params : List (List PyValue)) (batch_size : Nat) (hb : 0 < batch_size)
    (h : Nat) :
    (∀ c ∈ chunksOf batch_size params, c.length ≤ batch_size)
    ∧ (chunksOf batch_size params).flatten = params
    ∧ (∀ f : List PyValue → Nat,
        (∀ ps ∈ params, PostgresDatabase.bulkItem run query ps = .ok (f ps)) →
        PostgresDatabase.bulk_change (H := Nat) run (some h) query params
          batch_size = some (.ok (params.map f).sum))
    ∧ (∀ (pre : List (List PyValue)) (bad : List PyValue)
        (post : List (List PyValue)) (e : DbError),
        params = pre ++ bad :: post →
        (∀ ps ∈ pre, ∃ n, PostgresDatabase.bulkItem run query ps = .ok n) →
        PostgresDatabase.bulkItem run query bad = .error e →
        PostgresDatabase.bulk_change (H := Nat) run (some h) query params
          batch_size = some (.error e))
    ∧ (∀ f : List PyValue → Nat,
        (∀ ps ∈ params,
          SqliteDatabase.bulkItem runs querys ps = some (.ok (f ps))) →
        SqliteDatabase.bulk_change (H := Nat) runs (some h) querys params
          batch_size = some (.ok (params.map f).sum))
    ∧ (∀ (pre : List (List PyValue)) (bad : List PyValue)
        (post : List (List PyValue)) (e : DbError),
        params = pre ++ bad :: post →
        (∀ ps ∈ pre, ∃ n,
          SqliteDatabase.bulkItem runs querys ps = some (.ok n)) →
        SqliteDatabase.bulkItem runs querys bad = some (.error e) →
        SqliteDatabase.bulk_change (H := Nat) runs (some h) querys params
          batch_size = some (.error e)) := by
  have hunfold : PostgresDatabase.bulk_change (H := Nat) run (some h) query
      params batch_size =
      some (params.foldlM
        (fun total ps => (PostgresDatabase.bulkItem run query ps).map
          (total + ·)) 0) := by
    unfold PostgresDatabase.bulk_change
    rw [if_neg (by omega)]
    rw [foldlM_chunksOf _ batch_size hb]
  have hunfolds : SqliteDatabase.bulk_change (H := Nat) runs (some h) querys
      params batch_size =
      (params.foldlM (m := ExceptT DbError Option)
        (fun total ps => (ExceptT.mk (SqliteDatabase.bulkItem runs querys
          ps)).map (total + ·)) 0) := by
    unfold SqliteDatabase.bulk_change
    rw [if_neg (by omega)]
    rw [foldlM_chunksOf _ batch_size hb]
  refine ⟨chunksOf_length_le batch_size params,
    chunksOf_flatten batch_size hb params, ?_, ?_, ?_, ?_⟩
  · intro f hf
    rw [hunfold, foldl_items_ok (PostgresDatabase.bulkItem run query) f
      params 0 hf]
    simp
  · intro pre bad post e hparams hpre hbad
    subst hparams
    rw [hunfold, foldl_items_error (PostgresDatabase.bulkItem run query)
      pre bad post 0 e hpre hbad]
  · intro f hf
    rw [hunfolds, foldl_items_ok_sqlite
      (SqliteDatabase.bulkItem runs querys) f params 0 hf]
    simp [ExceptT.mk]
  · intro pre bad post e hparams hpre hbad
    subst hparams
    rw [hunfolds, foldl_items_error_sqlite
      (SqliteDatabase.bulkItem runs querys) pre bad post 0 e hpre hbad]
    rfl

/-- C7 witness: five parameter sets with `batch_size = 2` group as 2,2,1
and flatten back; with item 3 of 5 failing, `bulk_change` returns item 3's
error (items 4-5 never run). -/
theorem bulk_change_behavior_witness :
    (∀ c ∈ chunksOf 2 [[PyValue.int 1], [PyValue.int 2], [PyValue.int 3],
        [PyValue.int 4], [PyValue.int 5]], c.length ≤ 2)
    ∧ (chunksOf 2 [[PyValue.int 1], [PyValue.int 2], [PyValue.int 3],
        [PyValue.int 4], [PyValue.int 5]]).flatten =
      [[PyValue.int 1], [PyValue.int 2], [PyValue.int 3], [PyValue.int 4],
       [PyValue.int 5]]
    ∧ PostgresDatabase.bulk_change (H := Nat)
        (fun _ bound => if bound = [BoundValue.int 3] then .error "boom"
          else .ok 1)
        (some 0) "INSERT" [[PyValue.int 1], [PyValue.int 2], [PyValue.int 3],
          [PyValue.int 4], [PyValue.int 5]] 2 =
        some (.error (.queryError "boom")) := by
  refine ⟨(bulk_change_behavior
      (fun _ bound => if bound = [BoundValue.int 3] then .error "boom"
        else .ok 1) "INSERT" (fun _ _ => .ok 0) [] _ 2 (by omega) 0).1,
    (bulk_change_behavior
      (fun _ bound => if bound = [BoundValue.int 3] then .error "boom"
        else .ok 1) "INSERT" (fun _ _ => .ok 0) [] _ 2 (by omega) 0).2.1, ?_⟩
  exact (bulk_change_behavior
      (fun _ bound => if bound = [BoundValue.int 3] then .error "boom"
        else .ok 1) "INSERT" (fun _ _ => .ok 0) [] _ 2 (by omega) 0).2.2.2.1
    [[PyValue.int 1], [PyValue.int 2]] [PyValue.int 3]
    [[PyValue.int 4], [PyValue.int 5]] (.queryError "boom") rfl
    (by
      intro ps hps
      rcases List.mem_cons.mp hps with rfl | hps
      · exact ⟨1, rfl⟩
      rcases List.mem_cons.mp hps with rfl | hps
      · exact ⟨1, rfl⟩
      · exact absurd hps (by simp))
    rfl

/-- Re-assembling the scan's segmentation gives back the text. -/
theorem flattenSegs_segsOf : ∀ q : List Char, flattenSegs (segsOf q) = q
  | [] => by simp [segsOf, flattenSegs]
  | c :: rest => by
    by_cases hc : c = '$' ∧ rest.takeWhile Char.isDigit ≠ []
    · have ih := flattenSegs_segsOf (rest.dropWhile Char.isDigit)
      simp only [segsOf, if_pos hc, flattenSegs, ih, List.cons_append,
        List.takeWhile_append_dropWhile]
      rw [hc.1]
    · have ih := flattenSegs_segsOf rest
      simp only [segsOf, if_neg hc, flattenSegs, ih]
termination_by q => q.length
decreasing_by
  · have := (List.dropWhile_suffix (l := rest) Char.isDigit).length_le
    simp only [List.length_cons]
    omega
  · simp

/-- The text after a dropped digit run does not begin with a digit. -/
theorem noDigitHead_dropWhile (l : List Char) :
    noDigitHead (l.dropWhile Char.isDigit) := by
  have h := List.head?_dropWhile_not Char.isDigit l
  cases hd : l.dropWhile Char.isDigit with
  | nil => trivial
  | cons x xs =>
    rw [hd] at h
    simp only [List.head?_cons] at h
    simpa [noDigitHead] using h

/-- The scan's segmentation is well formed. -/
theorem segsWf_segsOf : ∀ q : List Char, SegsWf (segsOf q)
  | [] => by
    simp only [segsOf]
    exact .nil
  | c :: rest => by
    by_cases hc : c = '$' ∧ rest.takeWhile Char.isDigit ≠ []
    · have ih := segsWf_segsOf (rest.dropWhile Char.isDigit)
      simp only [segsOf, if_pos hc]
      exact SegsWf.ph _ _ hc.2 (fun ch hch => List.mem_takeWhile_imp hch)
        (by rw [flattenSegs_segsOf]; exact noDigitHead_dropWhile rest) ih
    · have ih := segsWf_segsOf rest
      simp only [segsOf, if_neg hc]
      refine SegsWf.lit c _ ?_ ih
      intro hceq
      rw [flattenSegs_segsOf]
      have htw : rest.takeWhile Char.isDigit = [] := by
        by_contra hne
        exact hc ⟨hceq, hne⟩
      cases rest with
      | nil => trivial
      | cons r rs =>
        simp only [List.takeWhile_cons] at htw
        by_cases hr : Char.isDigit r
        · simp [hr] at htw
        · simpa [noDigitHead] using hr
termination_by q => q.length
decreasing_by
  · have := (List.dropWhile_suffix (l := rest) Char.isDigit).length_le
    simp only [List.length_cons]
    omega
  · simp

/-- Every scanned token is a `'$'` followed by a nonempty digit run. -/
theorem phTokens_wf {segs : List Seg} (h : SegsWf segs) :
    ∀ t ∈ phTokens segs,
    ∃ ds, t = '$' :: ds ∧ ds ≠ [] ∧ ∀ ch ∈ ds, ch.isDigit := by
  induction h with
  | nil =>
    intro t ht
    simp [phTokens] at ht
  | lit c rest hd hr ih =>
    intro t ht
    exact ih t (by simpa [phTokens] using ht)
  | ph ds rest hne hdig hafter hr ih =>
    intro t ht
    simp only [phTokens] at ht
    rcases List.mem_cons.mp ht with rfl | ht
    · exact ⟨ds, rfl, hne, hdig⟩
    · exact ih t ht

/-- A segmentation without placeholders rewrites to itself. -/
theorem specRewrite_of_no_ph : ∀ segs : List Seg, phTokens segs = [] →
    specRewrite segs = flattenSegs segs
  | [], _ => rfl
  | .lit c :: rest, h => by
    simp only [specRewrite, flattenSegs]
    exact congrArg (c :: ·)
      (specRewrite_of_no_ph rest (by simpa [phTokens] using h))
  | .ph t :: rest, h => by simp [phTokens] at h

/-- Replacing one token's segments by literal `'?'` does not change the
intended one-pass rewrite. -/
theorem specRewrite_map_replace (pat : List Char) :
    ∀ segs : List Seg,
    specRewrite (segs.map fun s => if s = .ph pat then .lit '?' else s) =
      specRewrite segs
  | [] => rfl
  | .lit c :: rest => by
    rw [List.map_cons, if_neg (by simp)]
    simp only [specRewrite, specRewrite_map_replace pat rest]
  | .ph t :: rest => by
    rw [List.map_cons]
    by_cases ht : Seg.ph t = Seg.ph pat
    · rw [if_pos ht]
      simp only [specRewrite, specRewrite_map_replace pat rest]
    · rw [if_neg ht]
      simp only [specRewrite, specRewrite_map_replace pat rest]

/-- Tokens surviving a replacement were already there and differ from the
replaced one. -/
theorem phTokens_map_replace (pat : List Char) :
    ∀ segs : List Seg,
    ∀ u ∈ phTokens (segs.map fun s => if s = .ph pat then .lit '?' else s),
    u ∈ phTokens segs ∧ u ≠ pat
  | [] => by simp [phTokens]
  | .lit c :: rest => by
    intro u hu
    rw [List.map_cons, if_neg (by simp)] at hu
    simp only [phTokens] at hu ⊢
    exact phTokens_map_replace pat rest u hu
  | .ph t :: rest => by
    intro u hu
    rw [List.map_cons] at hu
    by_cases ht : Seg.ph t = Seg.ph pat
    · rw [if_pos ht] at hu
      simp only [phTokens] at hu
      have h := phTokens_map_replace pat rest u hu
      exact ⟨List.mem_cons_of_mem _ h.1, h.2⟩
    · rw [if_neg ht] at hu
      simp only [phTokens] at hu ⊢
      rcases List.mem_cons.mp hu with rfl | hu
      · refine ⟨List.mem_cons_self _ _, ?_⟩
        intro hEq
        exact ht (by rw [hEq])
      · have h := phTokens_map_replace pat rest u hu
        exact ⟨List.mem_cons_of_mem _ h.1, h.2⟩

/-- Head-digit freedom survives a token replacement. -/
theorem noDigitHead_map_replace (pat : List Char) (segs : List Seg)
    (hwf : SegsWf segs) (h : noDigitHead (flattenSegs segs)) :
    noDigitHead (flattenSegs
      (segs.map fun s => if s = .ph pat then .lit '?' else s)) := by
  cases hwf with
  | nil => trivial
  | lit c rest hd hr =>
    rw [List.map_cons, if_neg (by simp)]
    simpa [flattenSegs, noDigitHead] using h
  | ph ds rest hne hdig hafter hr =>
    rw [List.map_cons]
    by_cases ht : Seg.ph ('$' :: ds) = Seg.ph pat
    · rw [if_pos ht]
      show noDigitHead ('?' :: _)
      simp [noDigitHead]
    · rw [if_neg ht]
      show noDigitHead (('$' :: ds) ++ _)
      simp [noDigitHead]

/-- Well-formedness survives a token replacement. -/
theorem segsWf_map_replace (pat : List Char) {segs : List Seg}
    (h : SegsWf segs) :
    SegsWf (segs.map fun s => if s = .ph pat then .lit '?' else s) := by
  induction h with
  | nil => exact .nil
  | lit c rest hd hr ih =>
    rw [List.map_cons, if_neg (by simp)]
    refine .lit c _ ?_ ih
    intro hc
    exact noDigitHead_map_replace pat rest hr (hd hc)
  | ph ds rest hne hdig hafter hr ih =>
    rw [List.map_cons]
    by_cases ht : Seg.ph ('$' :: ds) = Seg.ph pat
    · rw [if_pos ht]
      refine .lit '?' _ ?_ ih
      intro hc
      exact absurd hc (by decide)
    · rw [if_neg ht]
      exact .ph ds _ hne hdig
        (noDigitHead_map_replace pat rest hr hafter) ih

/-- `str::replace` walks over a digit run untouched when the pattern starts
with `'$'`. -/
theorem replaceAll_skip_digits (p' rep : List Char) :
    ∀ (ds s : List Char), (∀ ch ∈ ds, ch.isDigit) →
    replaceAll ('$' :: p') rep (ds ++ s) = ds ++ replaceAll ('$' :: p') rep s
  | [], s, _ => by simp
  | d :: ds, s, h => by
    have hd : Char.isDigit d := h d (by simp)
    have hne : ('$' == d) = false := by
      simp only [beq_eq_false_iff_ne, ne_eq]
      intro hEq
      rw [← hEq] at hd
      exact absurd hd (by decide)
    simp only [List.cons_append, replaceAll]
    rw [dif_neg (by simp [List.isPrefixOf, hne])]
    rw [replaceAll_skip_digits p' rep ds s (fun ch hch => h ch (by simp [hch]))]

/-- `str::replace` with target `'$'::dp` on a well-formed segmentation in
which no token strictly extends the target: exactly the matching
placeholder segments are replaced, by `'?'`. -/
theorem replaceAll_on_segs (dp : List Char) (hnedp : dp ≠ [])
    (hdig : ∀ ch ∈ dp, ch.isDigit) {segs : List Seg} (hwf : SegsWf segs) :
    (∀ t ∈ phTokens segs, ('$' :: dp) <+: t → '$' :: dp = t) →
    replaceAll ('$' :: dp) ['?'] (flattenSegs segs) =
      flattenSegs (segs.map
        fun s => if s = .ph ('$' :: dp) then .lit '?' else s) := by
  induction hwf with
  | nil =>
    intro _
    simp [flattenSegs, replaceAll]
  | lit c rest hdollar hrest ih =>
    intro hnp
    have hcond : ¬(('$' :: dp) ≠ [] ∧
        ('$' :: dp).isPrefixOf (c :: flattenSegs rest)) := by
      rintro ⟨-, hpre⟩
      rw [List.isPrefixOf_iff_prefix, List.cons_prefix_cons] at hpre
      obtain ⟨hc, hdp⟩ := hpre
      have hnd := hdollar hc.symm
      obtain ⟨d, dp', rfl⟩ := List.exists_cons_of_ne_nil hnedp
      cases hfr : flattenSegs rest with
      | nil =>
        rw [hfr] at hdp
        simp at hdp
      | cons f fl' =>
        rw [hfr] at hdp hnd
        rw [List.cons_prefix_cons] at hdp
        rw [← hdp.1] at hnd
        exact hnd (hdig d (by simp))
    show replaceAll ('$' :: dp) ['?'] (c :: flattenSegs rest) = _
    simp only [replaceAll]
    rw [dif_neg hcond, List.map_cons, if_neg (by simp)]
    show _ = c :: flattenSegs (rest.map _)
    rw [ih (fun t ht => hnp t (by simpa [phTokens] using ht))]
  | ph ds rest hneds hdigds hafter hrest ih =>
    intro hnp
    have htk : ('$' :: ds) ∈ phTokens (Seg.ph ('$' :: ds) :: rest) := by
      simp [phTokens]
    have hih := ih (fun t ht => hnp t (by simp [phTokens, ht]))
    by_cases hds : ds = dp
    · subst hds
      show replaceAll ('$' :: ds) ['?'] (('$' :: ds) ++ flattenSegs rest) = _
      simp only [List.cons_append, replaceAll]
      rw [dif_pos ⟨by simp, by
        rw [List.isPrefixOf_iff_prefix]
        simpa [List.cons_append] using
          List.prefix_append ('$' :: ds) (flattenSegs rest)⟩]
      rw [List.map_cons, if_pos rfl]
      show '?' :: _ = _
      have hdrop : (('$' :: (ds ++ flattenSegs rest)).drop
          ('$' :: ds).length) = flattenSegs rest := by
        simp only [List.length_cons, List.drop_succ_cons]
        exact List.drop_left' rfl
      rw [hdrop, hih]
      rfl
    · have hcond : ¬(('$' :: dp) ≠ [] ∧
          ('$' :: dp).isPrefixOf ('$' :: (ds ++ flattenSegs rest))) := by
        rintro ⟨-, hpre⟩
        rw [List.isPrefixOf_iff_prefix, List.cons_prefix_cons] at hpre
        have hpre2 : dp <+: ds ++ flattenSegs rest := hpre.2
        rcases Nat.le_total dp.length ds.length with hlen | hlen
        · have hdpds : dp <+: ds :=
            List.prefix_of_prefix_length_le hpre2
              (List.prefix_append ds (flattenSegs rest)) hlen
          have heq := hnp ('$' :: ds) htk
            (by rw [List.cons_prefix_cons]; exact ⟨rfl, hdpds⟩)
          apply hds
          injection heq with _ h2
          exact h2.symm
        · have hdsdp : ds <+: dp :=
            List.prefix_of_prefix_length_le
              (List.prefix_append ds (flattenSegs rest)) hpre2 hlen
          obtain ⟨extra, hex⟩ := hdsdp
          have hextra_ne : extra ≠ [] := by
            intro h0
            apply hds
            rw [← hex, h0, List.append_nil]
          have hpre3 : ds ++ extra <+: ds ++ flattenSegs rest := by
            rw [hex]
            exact hpre2
          have hext : extra <+: flattenSegs rest :=
            (List.prefix_append_right_inj ds).mp hpre3
          obtain ⟨e, extra', rfl⟩ := List.exists_cons_of_ne_nil hextra_ne
          have he : Char.isDigit e := by
            apply hdig e
            rw [← hex]
            simp
          cases hfr : flattenSegs rest with
          | nil =>
            rw [hfr] at hext
            simp at hext
          | cons f fl' =>
            rw [hfr] at hext hafter
            rw [List.cons_prefix_cons] at hext
            rw [← hext.1] at hafter
            exact hafter he
      show replaceAll ('$' :: dp) ['?'] (('$' :: ds) ++ flattenSegs rest) = _
      simp only [List.cons_append, replaceAll]
      rw [dif_neg hcond]
      rw [show ds ++ flattenSegs rest = ds ++ flattenSegs rest from rfl,
        replaceAll_skip_digits dp ['?'] ds (flattenSegs rest) hdigds]
      rw [List.map_cons, if_neg (by simp [hds])]
      show _ = ('$' :: ds) ++ flattenSegs (rest.map _)
      rw [hih]
      simp [List.cons_append]

/-- The convert loop, run on the tokens of a well-formed segmentation with
no strict-prefix collisions and in-range indices: the query ends up as the
one-pass rewrite, and the emitted parameters follow token (occurrence)
order. -/
theorem convertLoop_rewrites {α : Type} (params : List α) :
    ∀ (toks : List (List Char)) (segs : List Seg) (acc : List α),
    SegsWf segs →
    (∀ t ∈ toks, ∃ ds, t = '$' :: ds ∧ ds ≠ [] ∧ ∀ ch ∈ ds, ch.isDigit) →
    (∀ u ∈ phTokens segs, u ∈ toks) →
    (∀ t ∈ toks, ∀ u ∈ phTokens segs, t <+: u → t = u) →
    (∀ t ∈ toks, 1 ≤ digitsToNat (t.drop 1) ∧
      digitsToNat (t.drop 1) ≤ params.length) →
    convertLoop params toks (flattenSegs segs) acc =
      some (specRewrite segs,
        acc ++ toks.filterMap
          (fun t => params.get? (digitsToNat (t.drop 1) - 1)))
  | [], segs, acc => by
    intro hwf _ hsub _ _
    have hempty : phTokens segs = [] := by
      cases hphs : phTokens segs with
      | nil => rfl
      | cons u us => exact absurd (hsub u (by rw [hphs]; simp)) (by simp)
    simp only [convertLoop, List.filterMap_nil, List.append_nil]
    rw [specRewrite_of_no_ph segs hempty]
  | t :: toks, segs, acc => by
    intro hwf htokform hsub hnp hrange
    obtain ⟨ds, rfl, hdsne, hdsdig⟩ := htokform t (by simp)
    have hr := hrange _ (List.mem_cons_self _ _)
    simp only [convertLoop]
    rw [dif_pos hr]
    rw [replaceAll_on_segs ds hdsne hdsdig hwf
      (fun u hu hpre => hnp _ (List.mem_cons_self _ _) u hu hpre)]
    rw [convertLoop_rewrites params toks
      (segs.map fun s => if s = .ph ('$' :: ds) then .lit '?' else s)
      (acc ++ [params.get ⟨digitsToNat (('$' :: ds).drop 1) - 1, by
        exact hr.elim fun h1 h2 => by omega⟩])
      (segsWf_map_replace _ hwf)
      (fun u hu => htokform u (by simp [hu]))
      (fun u hu => by
        have h2 := phTokens_map_replace ('$' :: ds) segs u hu
        rcases List.mem_cons.mp (hsub u h2.1) with rfl | h3
        · exact absurd rfl h2.2
        · exact h3)
      (fun t' ht' u hu hpre =>
        hnp t' (by simp [ht']) u (phTokens_map_replace _ segs u hu).1 hpre)
      (fun t' ht' => hrange t' (by simp [ht']))]
    rw [specRewrite_map_replace]
    rw [List.filterMap_cons]
    rw [List.get?_eq_get (by exact hr.elim fun h1 h2 => by omega)]
    simp [List.append_assoc]

/-- The convert loop returns (rather than panicking) exactly when every
token's index is in `1..params.length`, and then appends one referenced
parameter per token, in order. -/
theorem convertLoop_spec {α : Type} (params : List α) :
    ∀ (toks : List (List Char)) (q : List Char) (acc : List α),
    ((convertLoop params toks q acc).isSome ↔
      ∀ p ∈ toks, 1 ≤ digitsToNat (p.drop 1) ∧
        digitsToNat (p.drop 1) ≤ params.length)
    ∧ (∀ out, convertLoop params toks q acc = some out →
        out.2 = acc ++ toks.filterMap
          (fun p => params.get? (digitsToNat (p.drop 1) - 1)))
  | [], q, acc => by
    constructor
    · simp [convertLoop]
    · intro out h
      simp only [convertLoop, Option.some.injEq] at h
      rw [← h]
      simp
  | p :: toks, q, acc => by
    simp only [convertLoop]
    by_cases hc : 1 ≤ digitsToNat (p.drop 1) ∧
        digitsToNat (p.drop 1) ≤ params.length
    · rw [dif_pos hc]
      have ih := convertLoop_spec params toks (replaceAll p ['?'] q)
        (acc ++ [params.get ⟨digitsToNat (p.drop 1) - 1, by omega⟩])
      constructor
      · rw [ih.1]
        constructor
        · intro h t ht
          rcases List.mem_cons.mp ht with rfl | ht
          · exact hc
          · exact h t ht
        · intro h t ht
          exact h t (by simp [ht])
      · intro out hout
        have h2 := ih.2 out hout
        rw [h2, List.filterMap_cons, List.get?_eq_get (by omega)]
        simp [List.append_assoc]
    · rw [dif_neg hc]
      constructor
      · simp only [Option.isSome_none, Bool.false_eq_true, false_iff]
        intro h
        exact hc (h p (List.mem_cons_self _ _))
      · intro out hout
        exact Option.noConfusion hout

/-- C10: `convert_sql_params` is total exactly under the precondition that
every placeholder index `n` satisfies `1 ≤ n ≤ length params` — a `$0` or
an out-of-range index panics (usize underflow / out-of-bounds indexing,
`Option.none` here) instead of returning an error — and a returned
parameter list carries one referenced parameter per placeholder
occurrence, in occurrence order. -/
theorem convert_totality {α : Type} (q : List Char) (params : List α) :
    ((SqliteParameterBinder.convert_sql_params q params).isSome ↔
      ∀ p ∈ phTokens (segsOf q), 1 ≤ digitsToNat (p.drop 1) ∧
        digitsToNat (p.drop 1) ≤ params.length)
    ∧ (∀ out, SqliteParameterBinder.convert_sql_params q params = some out →
        out.2 = (phTokens (segsOf q)).filterMap
          (fun p => params.get? (digitsToNat (p.drop 1) - 1))) := by
  have h := convertLoop_spec params (phTokens (segsOf q)) q []
  exact ⟨h.1, fun out hout => by
    have h2 := h.2 out hout
    simpa using h2⟩

/-- C10 witness: a one-placeholder query with one parameter is total and
re-emits the parameter. -/
theorem convert_totality_witness :
    ([(7 : Nat)] : List Nat) = (phTokens (segsOf "a=$1".toList)).filterMap
      (fun p => [7].get? (digitsToNat (p.drop 1) - 1)) := by
  have h := (convert_totality "a=$1".toList [(7 : Nat)]).2
    ("a=?".toList, [7]) (by
      simp [SqliteParameterBinder.convert_sql_params, convertLoop, segsOf,
        phTokens, replaceAll, digitsToNat])
  simpa using h

/-- C3 (amended): provided no placeholder token occurring in the query is a
strict prefix of another occurring token (e.g. `$2` together with `$22`),
every occurrence is rewritten to the native `?` marker and the bound
parameter list is re-emitted in rewritten occurrence order, a parameter
referenced k times contributing k equal values.  (The strict-prefix
proviso is forced by the `String::replace` implementation; see the
counterexample.) -/
theorem convert_rewrite {α : Type} (q : List Char) (params : List α)
    (hrange : ∀ p ∈ phTokens (segsOf q), 1 ≤ digitsToNat (p.drop 1) ∧
      digitsToNat (p.drop 1) ≤ params.length)
    (hnp : ∀ p ∈ phTokens (segsOf q), ∀ t ∈ phTokens (segsOf q),
      p <+: t → p = t) :
    SqliteParameterBinder.convert_sql_params q params =
      some (specRewrite (segsOf q),
        (phTokens (segsOf q)).filterMap
          (fun p => params.get? (digitsToNat (p.drop 1) - 1))) := by
  have h := convertLoop_rewrites params (phTokens (segsOf q)) (segsOf q) []
    (segsWf_segsOf q) (phTokens_wf (segsWf_segsOf q)) (fun u hu => hu)
    hnp hrange
  rw [flattenSegs_segsOf] at h
  unfold SqliteParameterBinder.convert_sql_params
  rw [h]
  simp

/-- C3 witness: the claim's own example — `a=$1 AND b=$2 AND c=$1` with
params `["x", 7]` rewrites all three occurrences to `?` and rebinds
`["x", 7, "x"]` in occurrence order. -/
theorem convert_rewrite_witness :
    SqliteParameterBinder.convert_sql_params
      "SELECT * FROM t WHERE a=$1 AND b=$2 AND c=$1".toList
      [PyValue.str "x", PyValue.int 7] =
      some ("SELECT * FROM t WHERE a=? AND b=? AND c=?".toList,
        [PyValue.str "x", PyValue.int 7, PyValue.str "x"]) := by
  have h := convert_rewrite (α := PyValue)
    "SELECT * FROM t WHERE a=$1 AND b=$2 AND c=$1".toList
    [PyValue.str "x", PyValue.int 7]
    (by
      have hev : phTokens (segsOf
          "SELECT * FROM t WHERE a=$1 AND b=$2 AND c=$1".toList) =
          [['$', '1'], ['$', '2'], ['$', '1']] := by
        simp [segsOf, phTokens]
      rw [hev]
      decide)
    (by
      have hev : phTokens (segsOf
          "SELECT * FROM t WHERE a=$1 AND b=$2 AND c=$1".toList) =
          [['$', '1'], ['$', '2'], ['$', '1']] := by
        simp [segsOf, phTokens]
      rw [hev]
      decide)
  rw [h]
  simp [segsOf, phTokens, specRewrite, digitsToNat]

/-- C3 counterexample: with `$2` and `$22` both present, the `$2` pass of
`String::replace` also eats the `$2` inside `$22`, leaving the stray text
`?2` — the `$22` occurrence is NOT rewritten to the native marker, so the
claim fails as stated for general queries. -/
theorem convert_rewrite_cex :
    SqliteParameterBinder.convert_sql_params "y=$2 AND x=$22".toList
        (List.range 22) =
      some ("y=? AND x=?2".toList, [1, 21])
    ∧ "y=? AND x=?2".toList ≠ specRewrite (segsOf "y=$2 AND x=$22".toList) := by
  constructor
  · simp [SqliteParameterBinder.convert_sql_params, convertLoop, segsOf,
      phTokens, replaceAll, digitsToNat]
  · simp only [String.toList]
    simp [segsOf, specRewrite]

end Pyfast
